import Mathlib

/-!
Shallow embedding of the Bitcoin multi-signature wallet engine of
SecuX-Cyber-Athena: the wallet module and the transaction lifecycle module
(`createMultisigWallet`, `submitSignature`, `initiateTransaction`,
`broadcastTransaction`, `cancelTransaction`, `getTransactionStatus`) together
with the supporting utilities (`customHash`, `generateWalletId`, the
key/value persistence adapter and the network helpers of
`lib/btc-multisig/testnet.ts`).

Modelling conventions:
* JavaScript numbers that flow through the validation checks (`m`, `n`,
  `amount`, `feeRate`, satoshi sums, virtual sizes) are modelled as `ℚ`;
  `Number.isInteger` becomes `Rat.isInt` and `Math.ceil` becomes `Rat.ceil`.
* Buffers and hex strings are modelled as `String`; the hex re-encoding done
  by `Buffer.toString("hex")` and the external `sha256` and `Base58.encode`
  library functions are uninterpreted functions supplied by the environment.
* The Prisma-backed key/value store (`kvStore.get` / `kvStore.put`, an
  upsert) is modelled as a function `String → Option KVValue`.
* The external collaborators (the Secux PSBT script/address engine, the
  Bitcoin RPC / Blockbook network layer) are modelled by an `Env` record of
  per-call responses; the PSBT object is modelled by an explicit `Psbt`
  structure and the hex serialisation round-trip
  (`toBuffer` / `FromBuffer`) is treated as transparent.
* Every engine operation additionally returns the ordered list of events it
  performed: database writes (`Event.dbPut`) and external-collaborator calls
  (`Event.extCall`), in program order.
-/

abbrev HexString := String

structure Participant where
  publicKey : HexString
  userId : String
deriving DecidableEq, Repr

/-- The `Wallet` record of `lib/btc-multisig/interface.ts`. -/
structure Wallet where
  walletId : String
  address : String
  redeemScript : HexString
  m : ℚ
  n : ℚ
  name : String
  creationTime : String
  participants : List Participant
deriving DecidableEq, Repr

/-- The `TransactionStatus` enum of `lib/btc-multisig/interface.ts`. -/
inductive TransactionStatus where
  | pending
  | allsigned
  | broadcasted
  | finished
  | cancelled
deriving DecidableEq, Repr

/-- The string value carried by each `TransactionStatus` enum member. -/
def statusStr : TransactionStatus → String
  | .pending => "pending_signatures"
  | .allsigned => "finished_signatures"
  | .broadcasted => "broadcasted"
  | .finished => "confirmed"
  | .cancelled => "cancelled"

/-- A funding input as produced by `getUTXOsBlockbook`
(`hash`, `vout`, `satoshis`). -/
structure Utxo where
  hash : String
  vout : Nat
  satoshis : ℚ
deriving DecidableEq, Repr

structure TxOutput where
  address : String
  satoshis : ℚ
deriving DecidableEq, Repr

/-- A per-input signature entry applied to the PSBT via
`psbt.submitSignature(i, pubkey, signature)`. -/
structure SigEntry where
  inputIndex : Nat
  publickey : HexString
  signature : HexString
deriving DecidableEq, Repr

/-- Model of the Secux PSBT object: threshold and public keys installed by
`initializeMultiSig`, the inputs added by `addMultiSigInput`, the outputs
added by `AddOutput`, and the signature entries accepted so far. -/
structure Psbt where
  m : ℚ
  pubkeys : List HexString
  inputs : List Utxo
  outputs : List TxOutput
  addedSigs : List SigEntry
deriving DecidableEq, Repr

/-- The `Transaction` record of `lib/btc-multisig/interface.ts`.  The
`signatures` object (public key ↦ per-input signature list) is modelled as
an association list in insertion order, matching `Object.keys` enumeration
order; optional fields are `Option`s. -/
structure Transaction where
  transactionId : String
  walletId : String
  recipientAddress : String
  amount : ℚ
  status : TransactionStatus
  psbt : Psbt
  inputCount : Nat
  requiredSignatures : ℚ
  signatures : List (HexString × List HexString)
  signaturesReceived : Nat
  signedTransaction : Option HexString := none
  initiatedTime : String
  txHash : Option HexString := none
  broadcastTime : Option String := none
  note : Option String := none
deriving DecidableEq, Repr

/-- A value stored in the key/value store: the `wallet:` records, the `tx:`
records, and the `_id:` records written by `generateWalletId`. -/
inductive KVValue where
  | wallet (w : Wallet)
  | tx (t : Transaction)
  | idRec (walletId : String)
deriving DecidableEq, Repr

/-- The key/value persistence adapter (`kvStore` over the Prisma `keyValue`
table), modelled extensionally as a partial map from keys to values. -/
abbrev KV := String → Option KVValue

/-- The empty store. -/
def kvEmpty : KV := fun _ => none

/-- `kvStore.get`. -/
def kvGet (s : KV) (k : String) : Option KVValue := s k

/-- `kvStore.put`: a Prisma upsert on the key. -/
def kvPut (s : KV) (k : String) (v : KVValue) : KV :=
  fun k2 => if k2 = k then some v else s k2

def walletKey (walletId : String) : String := "wallet:" ++ walletId
def txKey (transactionId : String) : String := "tx:" ++ transactionId
def idKey (pre : String) : String := "_id:" ++ pre

/-- An observable event of an engine call: a persistence write or a call to
an external collaborator (script/address engine, network layer). -/
inductive Event where
  | dbPut (key : String)
  | extCall (name : String)
deriving DecidableEq, Repr

/-- External-collaborator responses and outputs for one engine call: the
uninterpreted hash/encoding library functions, the script/address engine's
deterministic outputs, and the per-call network responses. -/
structure Env where
  /-- `Buffer.toString("hex")` re-encoding inside `customHash`. -/
  hexEnc : String → String
  /-- The `sha256` digest (as a hex string) of `hash.js`. -/
  sha256hex : String → String
  /-- `Base58.encode` of `@secux/utility`. -/
  base58 : String → String
  /-- `psbt.initializeMultiSig(m, publicKeys)` yielding `(address, redeemScript)`. -/
  initializeMultiSig : ℚ → List HexString → String × String
  /-- `psbt.toBuffer().toString("hex")` serialisation of a PSBT. -/
  psbtSerialize : Psbt → String
  /-- Whether `psbt.submitSignature(i, {publickey, signature})` accepts the
  entry (it throws otherwise). -/
  sigAccept : Psbt → Nat → HexString → HexString → Bool
  /-- `psbt.finalizeAllInputs().extractTransaction().toHex()`. -/
  finalizeHex : Psbt → String
  /-- `new Date().toISOString()`. -/
  now : String
  /-- Response of `getUTXOsBlockbook(address)` (already filtered and
  converted to satoshis); `error` models a thrown network failure. -/
  utxosResp : Except String (List Utxo)
  /-- Result of `estimateVirtualSize(walletId, recipientAddress)`, which
  depends on the external script-type lookup, a network UTXO count and the
  byte-count table; modelled as an environment response. -/
  vSizeResp : Except String ℚ
  /-- The `result.result` field of the `sendrawtransaction` RPC reply;
  `Except.ok ""` models a falsy (missing) TXID, `error` a failed fetch. -/
  broadcastResp : Except String String
  /-- The confirmation count from `getrawtransaction`; `none` models both a
  caught RPC error and a missing transaction (`undefined`). -/
  txDetailsResp : Option ℤ

/-- `customHash(data)` of `lib/btc-multisig/testnet.ts`: hex-encode the
buffer, sha256 it, Base58-encode the digest. -/
def customHash (env : Env) (data : String) : String :=
  env.base58 (env.sha256hex (env.hexEnc data))

/-- `generateWalletId(prefix)` of `lib/btc-multisig/testnet.ts`: derives the
wallet id from the key fingerprint joined with the fixed domain-separation
suffix, and stores an `_id:` record. -/
def generateWalletId (env : Env) (s : KV) (pre : String) : KV × String :=
  let walletId := customHash env (pre ++ "#secux_btc_multisig")
  (kvPut s (idKey pre) (.idRec walletId), walletId)

/-- The summary returned by `createMultisigWallet`. -/
structure CreateResult where
  walletId : String
  address : String
  redeemScript : HexString
  m : ℚ
  n : ℚ
  name : String
  creationTime : String
deriving DecidableEq, Repr

/-- `createMultisigWallet` of the wallet module: validates the m-of-n
parameters and the participant list, derives the deterministic wallet id via
`customHash`/`generateWalletId`, derives the address and redeem script via
the script engine, and persists the wallet record. -/
def createMultisigWallet (env : Env) (s : KV) (m n : ℚ) (name : Option String)
    (participants : List Participant) :
    List Event × Except String (KV × CreateResult) :=
  if ¬ (m.isInt ∧ n.isInt) then
    ([], .error "m and n must be integers")
  else if m > n ∨ m ≤ 0 ∨ n ≤ 0 then
    ([], .error "Invalid m-of-n values. m must be <= n, and both must be > 0")
  else if (participants.length : ℚ) ≠ n then
    ([], .error ("Expected " ++ toString n ++ " participants, but got " ++
      toString participants.length))
  else
    let publicKeys := participants.map (·.publicKey)
    if (publicKeys.dedup.length : ℚ) ≠ n then
      ([], .error "Duplicate public keys found among participants.")
    else
      let publicKeyHash := customHash env (String.intercalate "-" publicKeys)
      let (s1, walletId) := generateWalletId env s publicKeyHash
      let (address, redeemScript) := env.initializeMultiSig m publicKeys
      let walletData : Wallet := {
        walletId := walletId
        address := address
        redeemScript := redeemScript
        m := m
        n := n
        name := name.getD ""
        creationTime := env.now
        participants := participants.map fun p => ⟨p.publicKey, p.userId⟩
      }
      let s2 := kvPut s1 (walletKey walletId) (.wallet walletData)
      ([.dbPut (idKey publicKeyHash), .extCall "initializeMultiSig",
        .dbPut (walletKey walletId)],
       .ok (s2, {
        walletId := walletData.walletId
        address := walletData.address
        redeemScript := walletData.redeemScript
        m := walletData.m
        n := walletData.n
        name := walletData.name
        creationTime := walletData.creationTime
       }))

/-- The status summary returned by `getTransactionStatus` (and used to state
the idempotence properties). -/
structure StatusSummary where
  transactionId : String
  walletId : String
  status : TransactionStatus
  initiatedTime : String
  txHash : Option HexString
  broadcastTime : Option String
  requiredSignatures : ℚ
  signaturesReceived : Nat
deriving DecidableEq, Repr

/-- The summary object built at the end of `getTransactionStatus`. -/
def mkSummary (t : Transaction) : StatusSummary := {
  transactionId := t.transactionId
  walletId := t.walletId
  status := t.status
  initiatedTime := t.initiatedTime
  txHash := t.txHash
  broadcastTime := t.broadcastTime
  requiredSignatures := t.requiredSignatures
  signaturesReceived := t.signaturesReceived
}

/-- JavaScript truthiness of an optional string (`undefined` and `""` are
falsy). -/
def truthyStr : Option String → Bool
  | some h => h ≠ ""
  | none => false

/-- `initiateTransaction` of the transaction module: validates the inputs,
loads the wallet, fetches the wallet's UTXOs, builds the PSBT (all inputs,
the recipient output and, when the remainder is positive, a change output
back to the wallet address), checks fund sufficiency against
`Math.ceil(vSize * feeRate)`, derives the transaction id from the serialised
PSBT and persists the new `pending` record.  The JS default for `feeRate`
is `1.0`. -/
def initiateTransaction (env : Env) (s : KV) (walletId : String)
    (recipientAddress : String) (amount : ℚ) (feeRate : ℚ) (note : Option String) :
    List Event × Except String (KV × Transaction) :=
  if recipientAddress = "" then
    ([], .error "recipientAddress MUST be a non-empty string.")
  else if amount ≤ 0 then
    ([], .error "amount MUST be a positive number.")
  else if feeRate ≤ 0 then
    ([], .error "feeRate, if provided, MUST be a positive number.")
  else
    match kvGet s (walletKey walletId) with
    | some (.wallet walletData) =>
      let requiredSignatures := walletData.m
      match env.utxosResp with
      | .error e => ([.extCall "getUTXOsBlockbook"], .error e)
      | .ok utxos =>
        if utxos = [] then
          ([.extCall "getUTXOsBlockbook"],
           .error "No confirmed UTXOs available. Cannot create a transaction.")
        else
          let psbt0 : Psbt := {
            m := walletData.m
            pubkeys := walletData.participants.map (·.publicKey)
            inputs := []
            outputs := []
            addedSigs := [] }
          let psbt1 := { psbt0 with inputs := psbt0.inputs ++ utxos }
          let totalInputAmount := (utxos.map (·.satoshis)).sum
          let inputCount := utxos.length
          let evs0 := [Event.extCall "getUTXOsBlockbook",
            Event.extCall "initializeMultiSig"] ++
            utxos.map (fun _ => Event.extCall "psbt.addMultiSigInput") ++
            [Event.extCall "estimateVirtualSize"]
          match env.vSizeResp with
          | .error e => (evs0, .error e)
          | .ok vSize =>
            let estimatedFee : ℚ := ((⌈vSize * feeRate⌉ : ℤ) : ℚ)
            if totalInputAmount < amount + estimatedFee then
              (evs0, .error ("Insufficient funds.  Available: " ++
                toString totalInputAmount ++ ", Required (amount + fee): " ++
                toString (amount + estimatedFee)))
            else
              let psbt2 := { psbt1 with
                outputs := psbt1.outputs ++ [⟨recipientAddress, amount⟩] }
              let changeAmount := totalInputAmount - amount - estimatedFee
              let psbt3 := if changeAmount > 0 then
                  { psbt2 with
                    outputs := psbt2.outputs ++ [⟨walletData.address, changeAmount⟩] }
                else psbt2
              let serialized := env.psbtSerialize psbt3
              let transactionId := customHash env serialized
              let transaction : Transaction := {
                transactionId := transactionId
                walletId := walletId
                recipientAddress := recipientAddress
                amount := amount
                status := .pending
                psbt := psbt3
                inputCount := inputCount
                requiredSignatures := requiredSignatures
                signatures := []
                signaturesReceived := 0
                initiatedTime := env.now
                note := note
              }
              (evs0 ++ [Event.extCall "psbt.AddOutput",
                 Event.extCall "psbt.toBuffer", Event.dbPut (txKey transactionId)],
               .ok (kvPut s (txKey transactionId) (.tx transaction), transaction))
    | _ => ([], .error ("Wallet not found: " ++ walletId))

/-- The per-input signature application loop of `submitSignature`:
`psbt.submitSignature(i, { publickey, signature })` for each entry of the
submitted list, indexed from `0`; the engine throws on a rejected entry.
Returns the external-call events alongside the updated PSBT. -/
def applySigs (env : Env) (publicKey : HexString) :
    Psbt → Nat → List HexString → List Event × Except String Psbt
  | psbt, _, [] => ([], .ok psbt)
  | psbt, i, sig :: rest =>
    if env.sigAccept psbt i publicKey sig then
      let next := applySigs env publicKey
        { psbt with addedSigs := psbt.addedSigs ++ [⟨i, publicKey, sig⟩] }
        (i + 1) rest
      (Event.extCall "psbt.submitSignature" :: next.1, next.2)
    else
      ([Event.extCall "psbt.submitSignature"],
       .error "PSBT engine rejected the signature")

/-- The summary returned by `submitSignature`; the `requiredSignatures`
field of the response is the remaining count
(`requiredSignatures - signaturesReceived` in the code). -/
structure SubmitResult where
  transactionId : String
  status : TransactionStatus
  signaturesReceived : Nat
  requiredSignatures : ℚ
deriving DecidableEq, Repr

def mkSubmitResult (t : Transaction) : SubmitResult := {
  transactionId := t.transactionId
  status := t.status
  signaturesReceived := t.signaturesReceived
  requiredSignatures := t.requiredSignatures - t.signaturesReceived
}

/-- `submitSignature` of the wallet module: loads the pending transaction
and its wallet, rejects duplicate signers, applies each per-input signature
to the PSBT, records the signer's entry, and — when the received count
reaches the required count — finalizes the PSBT into `signedTransaction`
and moves the record to `allsigned`; the updated record is persisted. -/
def submitSignature (env : Env) (s : KV) (transactionId : String)
    (publicKey : HexString) (signatures : List HexString) :
    List Event × Except String (KV × SubmitResult) :=
  if publicKey = "" then
    ([], .error "publicKey MUST be a non-empty string.")
  else
    match kvGet s (txKey transactionId) with
    | some (.tx transaction) =>
      if transaction.status ≠ .pending then
        ([], .error ("Transaction is not in pending_signatures state. Current: " ++
          statusStr transaction.status))
      else
        match kvGet s (walletKey transaction.walletId) with
        | some (.wallet _walletData) =>
          -- SecuxPsbt.FromBuffer: the hex round-trip is transparent here
          let psbt := transaction.psbt
          if (transaction.signatures.map Prod.fst).contains publicKey then
            ([.extCall "SecuxPsbt.FromBuffer"],
             .error ("User with public key " ++ publicKey ++
               " has already signed this transaction."))
          else
            match applySigs env publicKey psbt 0 signatures with
            | (sigEvents, .error e) =>
              ([Event.extCall "SecuxPsbt.FromBuffer"] ++ sigEvents, .error e)
            | (sigEvents, .ok psbt2) =>
              let sigs2 := transaction.signatures ++ [(publicKey, signatures)]
              let received := sigs2.length
              let base := { transaction with
                signatures := sigs2
                signaturesReceived := received
                psbt := psbt2 }
              if (received : ℚ) ≥ transaction.requiredSignatures then
                let t2 := { base with
                  status := .allsigned
                  signedTransaction := some (env.finalizeHex psbt2) }
                ([Event.extCall "SecuxPsbt.FromBuffer"] ++ sigEvents ++
                  [Event.extCall "psbt.toBuffer",
                   Event.extCall "psbt.finalizeAllInputs",
                   Event.dbPut (txKey transactionId)],
                 .ok (kvPut s (txKey transactionId) (.tx t2), mkSubmitResult t2))
              else
                ([Event.extCall "SecuxPsbt.FromBuffer"] ++ sigEvents ++
                  [Event.extCall "psbt.toBuffer", Event.dbPut (txKey transactionId)],
                 .ok (kvPut s (txKey transactionId) (.tx base), mkSubmitResult base))
        | _ => ([], .error ("Wallet not found: " ++ transaction.walletId))
    | _ => ([], .error ("Transaction not found: " ++ transactionId))

/-- The `broadcastTransaction` helper of `lib/btc-multisig/testnet.ts`:
submits the raw transaction over RPC and returns the network TXID; a failed
fetch or a falsy `result.result` is an error. -/
def utilsBroadcastTransaction (env : Env) (_signedTransaction : HexString) :
    Except String String :=
  match env.broadcastResp with
  | .error e => .error e
  | .ok txid => if txid = "" then .error "No TXID returned from broadcast." else .ok txid

/-- The receipt returned by `broadcastTransaction`. -/
structure BroadcastResult where
  transactionId : String
  status : TransactionStatus
  txHash : HexString
  broadcastTime : Option String
  message : String
deriving DecidableEq, Repr

/-- `broadcastTransaction` of the transaction module: requires the
`allsigned` status, submits `signedTransaction` to the network, then sets
`txHash`, `broadcastTime` and the `broadcasted` status and persists. -/
def broadcastTransaction (env : Env) (s : KV) (transactionId : String) :
    List Event × Except String (KV × BroadcastResult) :=
  match kvGet s (txKey transactionId) with
  | some (.tx transaction) =>
    if transaction.status ≠ .allsigned then
      ([], .error ("Transaction is not complete. Current status: " ++
        statusStr transaction.status))
    else
      match utilsBroadcastTransaction env (transaction.signedTransaction.getD "") with
      | .error e => ([.extCall "broadcastTransaction"], .error e)
      | .ok txHash =>
        let t2 := { transaction with
          txHash := some txHash
          status := .broadcasted
          broadcastTime := some env.now }
        ([.extCall "broadcastTransaction", .dbPut (txKey transactionId)],
         .ok (kvPut s (txKey transactionId) (.tx t2),
          { transactionId := t2.transactionId
            status := t2.status
            txHash := txHash
            broadcastTime := t2.broadcastTime
            message := "Transaction broadcast successfully" }))
  | _ => ([], .error ("Transaction not found: " ++ transactionId))

/-- The cancellation summary returned by `cancelTransaction`. -/
structure CancelResult where
  transactionId : String
  status : TransactionStatus
deriving DecidableEq, Repr

/-- `cancelTransaction` of the transaction module: requires the `pending`
status, then sets `cancelled` and persists. -/
def cancelTransaction (_env : Env) (s : KV) (transactionId : String) :
    List Event × Except String (KV × CancelResult) :=
  match kvGet s (txKey transactionId) with
  | some (.tx transaction) =>
    if transaction.status ≠ .pending then
      ([], .error ("Transaction can only be cancelled if status is pending_signatures. Current: " ++
        statusStr transaction.status))
    else
      let t2 := { transaction with status := .cancelled }
      ([.dbPut (txKey transactionId)],
       .ok (kvPut s (txKey transactionId) (.tx t2),
        ({ transactionId := t2.transactionId, status := t2.status } : CancelResult)))
  | _ => ([], .error ("Transaction not found: " ++ transactionId))

/-- `getTransactionStatus` of the transaction module: on a `broadcasted`
record with a truthy `txHash` it queries the network for the confirmation
count (errors are caught and ignored); with a positive count it persists the
`finished` (confirmed) status before returning the summary. -/
def getTransactionStatus (env : Env) (s : KV) (transactionId : String) :
    List Event × Except String (KV × StatusSummary) :=
  match kvGet s (txKey transactionId) with
  | some (.tx transaction) =>
    if transaction.status = .broadcasted ∧ truthyStr transaction.txHash then
      match env.txDetailsResp with
      | some confirmations =>
        if confirmations > 0 then
          let t2 := { transaction with status := .finished }
          ([.extCall "getTransactionStatus", .dbPut (txKey transactionId)],
           .ok (kvPut s (txKey transactionId) (.tx t2), mkSummary t2))
        else
          ([.extCall "getTransactionStatus"], .ok (s, mkSummary transaction))
      | none => ([.extCall "getTransactionStatus"], .ok (s, mkSummary transaction))
    else
      ([], .ok (s, mkSummary transaction))
  | _ => ([], .error ("Transaction not found: " ++ transactionId))

/-! ## Step relation and reachability

A step is one successful engine operation, under an arbitrary environment
(external collaborators) and arbitrary caller-supplied arguments.  The
engine module is the only writer of the `wallet:` / `tx:` / `_id:` records,
so every reachable persisted state arises from the empty store by these
operations. -/

inductive Step : KV → KV → Prop where
  | create (env : Env) (s : KV) (m n : ℚ) (nm : Option String)
      (ps : List Participant) (s' : KV) (r : CreateResult)
      (h : (createMultisigWallet env s m n nm ps).2 = .ok (s', r)) : Step s s'
  | initiate (env : Env) (s : KV) (walletId recipientAddress : String)
      (amount feeRate : ℚ) (note : Option String) (s' : KV) (r : Transaction)
      (h : (initiateTransaction env s walletId recipientAddress amount feeRate
        note).2 = .ok (s', r)) : Step s s'
  | submit (env : Env) (s : KV) (transactionId publicKey : String)
      (sigs : List HexString) (s' : KV) (r : SubmitResult)
      (h : (submitSignature env s transactionId publicKey sigs).2 = .ok (s', r)) :
      Step s s'
  | cancel (env : Env) (s : KV) (transactionId : String) (s' : KV)
      (r : CancelResult)
      (h : (cancelTransaction env s transactionId).2 = .ok (s', r)) : Step s s'
  | broadcast (env : Env) (s : KV) (transactionId : String) (s' : KV)
      (r : BroadcastResult)
      (h : (broadcastTransaction env s transactionId).2 = .ok (s', r)) : Step s s'
  | getStatus (env : Env) (s : KV) (transactionId : String) (s' : KV)
      (r : StatusSummary)
      (h : (getTransactionStatus env s transactionId).2 = .ok (s', r)) : Step s s'

/-- A persisted state reachable from the empty store by engine operations. -/
def Reachable (s : KV) : Prop := Relation.ReflTransGen Step kvEmpty s

/-- Statuses in which the transaction has been fully signed. -/
def signedPhase (st : TransactionStatus) : Prop :=
  st = .allsigned ∨ st = .broadcasted ∨ st = .finished

/-- Statuses in which the transaction has been broadcast. -/
def broadcastPhase (st : TransactionStatus) : Prop :=
  st = .broadcasted ∨ st = .finished

instance : DecidablePred signedPhase := fun st => by
  unfold signedPhase; infer_instance

instance : DecidablePred broadcastPhase := fun st => by
  unfold broadcastPhase; infer_instance

/-- Record invariant of a persisted transaction. -/
structure TxInv (t : Transaction) : Prop where
  recv_eq : t.signaturesReceived = t.signatures.length
  keys_nodup : (t.signatures.map Prod.fst).Nodup
  req_pos : 0 < t.requiredSignatures
  pending_lt : t.status = .pending →
    (t.signaturesReceived : ℚ) < t.requiredSignatures
  signed_iff : t.signedTransaction.isSome ↔ signedPhase t.status
  txHash_iff : t.txHash.isSome ↔ broadcastPhase t.status
  btime_iff : t.broadcastTime.isSome ↔ broadcastPhase t.status
  txHash_ne : ∀ h, t.txHash = some h → h ≠ ""

/-- Store invariant: every persisted wallet has a positive threshold and
every persisted transaction satisfies the record invariant. -/
def StoreInv (s : KV) : Prop :=
  (∀ k w, s k = some (.wallet w) → 0 < w.m) ∧
  (∀ k t, s k = some (.tx t) → TxInv t)

theorem kvGet_kvPut (s : KV) (k : String) (v : KVValue) (k2 : String) :
    kvGet (kvPut s k v) k2 = if k2 = k then some v else kvGet s k2 := rfl

/-! ### Abbreviations for the values computed by `createMultisigWallet` -/

/-- The key fingerprint: participant public keys joined in supplied order. -/
def fingerprintOf (env : Env) (ps : List Participant) : String :=
  customHash env (String.intercalate "-" (ps.map (·.publicKey)))

/-- The derived wallet id: fingerprint plus the fixed domain-separation
suffix, through `customHash` again. -/
def walletIdOf (env : Env) (ps : List Participant) : String :=
  customHash env (fingerprintOf env ps ++ "#secux_btc_multisig")

/-- The wallet record persisted by a successful `createMultisigWallet`. -/
def walletDataOf (env : Env) (m n : ℚ) (nm : Option String)
    (ps : List Participant) : Wallet := {
  walletId := walletIdOf env ps
  address := (env.initializeMultiSig m (ps.map (·.publicKey))).1
  redeemScript := (env.initializeMultiSig m (ps.map (·.publicKey))).2
  m := m
  n := n
  name := nm.getD ""
  creationTime := env.now
  participants := ps.map fun p => ⟨p.publicKey, p.userId⟩
}

/-- The store produced by a successful `createMultisigWallet`. -/
def createStoreOf (env : Env) (s : KV) (m n : ℚ) (nm : Option String)
    (ps : List Participant) : KV :=
  kvPut (kvPut s (idKey (fingerprintOf env ps)) (.idRec (walletIdOf env ps)))
    (walletKey (walletIdOf env ps)) (.wallet (walletDataOf env m n nm ps))

/-- The summary returned by a successful `createMultisigWallet`. -/
def createResultOf (env : Env) (m n : ℚ) (nm : Option String)
    (ps : List Participant) : CreateResult := {
  walletId := walletIdOf env ps
  address := (env.initializeMultiSig m (ps.map (·.publicKey))).1
  redeemScript := (env.initializeMultiSig m (ps.map (·.publicKey))).2
  m := m
  n := n
  name := nm.getD ""
  creationTime := env.now
}

/-- The validation conditions of `createMultisigWallet`, as checked by the
code. -/
def CreateValid (m n : ℚ) (ps : List Participant) : Prop :=
  (m.isInt ∧ n.isInt) ∧ ¬(m > n ∨ m ≤ 0 ∨ n ≤ 0) ∧
  (ps.length : ℚ) = n ∧ ((ps.map (·.publicKey)).dedup.length : ℚ) = n

instance (m n : ℚ) (ps : List Participant) : Decidable (CreateValid m n ps) := by
  unfold CreateValid; infer_instance

/-- Characterization of a successful `createMultisigWallet` call. -/
theorem createMultisigWallet_ok_iff (env : Env) (s : KV) (m n : ℚ)
    (nm : Option String) (ps : List Participant) (s' : KV) (r : CreateResult) :
    (createMultisigWallet env s m n nm ps).2 = .ok (s', r) ↔
      CreateValid m n ps ∧ s' = createStoreOf env s m n nm ps ∧
        r = createResultOf env m n nm ps := by
  unfold createMultisigWallet CreateValid createStoreOf createResultOf
    walletDataOf walletIdOf fingerprintOf generateWalletId
  by_cases h1 : m.isInt ∧ n.isInt
  · by_cases h2 : m > n ∨ m ≤ 0 ∨ n ≤ 0
    · simp [h1, h2]
    · by_cases h3 : (ps.length : ℚ) = n
      · by_cases h4 : ((ps.map (·.publicKey)).dedup.length : ℚ) = n
        · simp [h1, h2, h3, h4, and_comm, eq_comm]
        · simp [h1, h2, h3, h4]
      · simp [h1, h2, h3]
  · simp [h1]

/-- Any successful `initiateTransaction` call persists exactly one fresh
`pending` record (possibly overwriting a record whose derived id collides)
with an empty signature map, a zero received count, no signed transaction,
no hash and no broadcast time, and a required count equal to the wallet's
`m`. -/
theorem initiateTransaction_ok_elim {env : Env} {s : KV}
    {wid ra : String} {amount feeRate : ℚ} {note : Option String}
    {s' : KV} {t : Transaction}
    (h : (initiateTransaction env s wid ra amount feeRate note).2 = .ok (s', t)) :
    ∃ w, kvGet s (walletKey wid) = some (KVValue.wallet w) ∧
      t.status = .pending ∧ t.signatures = [] ∧ t.signaturesReceived = 0 ∧
      t.signedTransaction = none ∧ t.txHash = none ∧ t.broadcastTime = none ∧
      t.requiredSignatures = w.m ∧
      s' = kvPut s (txKey t.transactionId) (.tx t) := by
  simp only [initiateTransaction] at h
  split at h
  · simp at h
  split at h
  · simp at h
  split at h
  · simp at h
  split at h
  case _ w hw =>
    split at h
    · simp at h
    case _ utxos hu =>
      split at h
      · simp at h
      split at h
      · simp at h
      case _ vSize hv =>
        split at h
        · simp at h
        simp only [Except.ok.injEq, Prod.mk.injEq] at h
        obtain ⟨hs', ht⟩ := h
        refine ⟨w, hw, ?_⟩
        subst ht
        subst hs'
        simp
  · simp at h

/-- The updated record built by `submitSignature` before the threshold
check. -/
def submitBase (t : Transaction) (pk : HexString) (sigs : List HexString)
    (psbt2 : Psbt) : Transaction :=
  { t with
    signatures := t.signatures ++ [(pk, sigs)]
    signaturesReceived := (t.signatures ++ [(pk, sigs)]).length
    psbt := psbt2 }

/-- The finalized record built by `submitSignature` once the threshold is
reached. -/
def submitFinal (env : Env) (t : Transaction) (pk : HexString)
    (sigs : List HexString) (psbt2 : Psbt) : Transaction :=
  { submitBase t pk sigs psbt2 with
    status := .allsigned
    signedTransaction := some (env.finalizeHex psbt2) }

/-- Any successful `submitSignature` call acts on a pending record whose
signature map does not yet contain the submitted key, applies the per-input
signatures, appends the signer's entry, and persists either the still-
pending record (below threshold) or the finalized `allsigned` record (at or
above threshold). -/
theorem submitSignature_ok_elim {env : Env} {s : KV} {tid pk : String}
    {sigs : List HexString} {s' : KV} {r : SubmitResult}
    (h : (submitSignature env s tid pk sigs).2 = .ok (s', r)) :
    ∃ t psbt2, kvGet s (txKey tid) = some (KVValue.tx t) ∧
      t.status = .pending ∧ pk ≠ "" ∧
      (t.signatures.map Prod.fst).contains pk = false ∧
      (applySigs env pk t.psbt 0 sigs).2 = .ok psbt2 ∧
      ((((t.signatures.length + 1 : ℕ) : ℚ) ≥ t.requiredSignatures ∧
          s' = kvPut s (txKey tid) (.tx (submitFinal env t pk sigs psbt2)) ∧
          r = mkSubmitResult (submitFinal env t pk sigs psbt2)) ∨
        (¬ (((t.signatures.length + 1 : ℕ) : ℚ) ≥ t.requiredSignatures) ∧
          s' = kvPut s (txKey tid) (.tx (submitBase t pk sigs psbt2)) ∧
          r = mkSubmitResult (submitBase t pk sigs psbt2))) := by
  simp only [submitSignature] at h
  split at h
  · simp at h
  case _ hpk =>
    split at h
    case _ t ht =>
      split at h
      case _ hst =>
        simp at h
      case _ hst =>
        split at h
        case _ w hw =>
          split at h
          · simp at h
          case _ hdup =>
            split at h
            case _ sigEvents e happ =>
              simp at h
            case _ sigEvents psbt2 happ =>
              split at h
              case _ hthr =>
                simp only [Except.ok.injEq, Prod.mk.injEq] at h
                obtain ⟨hs', hr⟩ := h
                refine ⟨t, psbt2, ht, not_ne_iff.mp hst, hpk, ?_, ?_, ?_⟩
                · simpa using hdup
                · rw [happ]
                · left
                  refine ⟨by simpa using hthr, ?_, ?_⟩
                  · rw [← hs']
                    simp [submitFinal, submitBase]
                  · rw [← hr]
                    simp [submitFinal, submitBase]
              case _ hthr =>
                simp only [Except.ok.injEq, Prod.mk.injEq] at h
                obtain ⟨hs', hr⟩ := h
                refine ⟨t, psbt2, ht, not_ne_iff.mp hst, hpk, ?_, ?_, ?_⟩
                · simpa using hdup
                · rw [happ]
                · right
                  refine ⟨by simpa using hthr, ?_, ?_⟩
                  · rw [← hs']
                    simp [submitBase]
                  · rw [← hr]
                    simp [submitBase]
        · simp at h
    · simp at h

/-- Any successful `cancelTransaction` call acts on a pending record and
persists it with the `cancelled` status. -/
theorem cancelTransaction_ok_elim {env : Env} {s : KV} {tid : String}
    {s' : KV} {r : CancelResult}
    (h : (cancelTransaction env s tid).2 = .ok (s', r)) :
    ∃ t, kvGet s (txKey tid) = some (KVValue.tx t) ∧ t.status = .pending ∧
      s' = kvPut s (txKey tid) (.tx { t with status := .cancelled }) ∧
      r = { transactionId := t.transactionId, status := .cancelled } := by
  simp only [cancelTransaction] at h
  split at h
  case _ t ht =>
    split at h
    · simp at h
    case _ hst =>
      simp only [Except.ok.injEq, Prod.mk.injEq] at h
      exact ⟨t, ht, not_ne_iff.mp hst, h.1.symm, h.2.symm⟩
  · simp at h

/-- A successful `utilsBroadcastTransaction` returns a non-empty TXID. -/
theorem utilsBroadcastTransaction_ok_ne {env : Env} {raw txid : String}
    (h : utilsBroadcastTransaction env raw = .ok txid) : txid ≠ "" := by
  unfold utilsBroadcastTransaction at h
  split at h
  · simp at h
  case _ t2 =>
    split at h
    · simp at h
    case _ hne => simp only [Except.ok.injEq] at h; rw [← h]; exact hne

/-- Any successful `broadcastTransaction` call acts on an `allsigned`
record and persists it with the `broadcasted` status, a non-empty `txHash`
and a `broadcastTime`. -/
theorem broadcastTransaction_ok_elim {env : Env} {s : KV} {tid : String}
    {s' : KV} {r : BroadcastResult}
    (h : (broadcastTransaction env s tid).2 = .ok (s', r)) :
    ∃ t txid, kvGet s (txKey tid) = some (KVValue.tx t) ∧
      t.status = .allsigned ∧ txid ≠ "" ∧
      s' = kvPut s (txKey tid) (.tx { t with
        txHash := some txid
        status := .broadcasted
        broadcastTime := some env.now }) := by
  simp only [broadcastTransaction] at h
  split at h
  case _ t ht =>
    split at h
    · simp at h
    case _ hst =>
      split at h
      case _ e hb => simp at h
      case _ txid hb =>
        simp only [Except.ok.injEq, Prod.mk.injEq] at h
        exact ⟨t, txid, ht, not_ne_iff.mp hst,
          utilsBroadcastTransaction_ok_ne hb, h.1.symm⟩
  · simp at h

/-- Any successful `getTransactionStatus` call either observes a positive
confirmation count on a `broadcasted` record with a truthy hash and
persists the `finished` status, or leaves the store unchanged and reports
the stored record. -/
theorem getTransactionStatus_ok_elim {env : Env} {s : KV} {tid : String}
    {s' : KV} {r : StatusSummary}
    (h : (getTransactionStatus env s tid).2 = .ok (s', r)) :
    ∃ t, kvGet s (txKey tid) = some (KVValue.tx t) ∧
      ((∃ c, t.status = .broadcasted ∧ truthyStr t.txHash = true ∧
          env.txDetailsResp = some c ∧ 0 < c ∧
          s' = kvPut s (txKey tid) (.tx { t with status := .finished }) ∧
          r = mkSummary { t with status := .finished }) ∨
        (s' = s ∧ r = mkSummary t)) := by
  simp only [getTransactionStatus] at h
  split at h
  case _ t ht =>
    refine ⟨t, ht, ?_⟩
    split at h
    case _ hcond =>
      split at h
      case _ c hc =>
        split at h
        case _ hpos =>
          simp only [Except.ok.injEq, Prod.mk.injEq] at h
          exact .inl ⟨c, hcond.1, hcond.2, hc, hpos, h.1.symm, h.2.symm⟩
        case _ hpos =>
          simp only [Except.ok.injEq, Prod.mk.injEq] at h
          exact .inr ⟨h.1.symm, h.2.symm⟩
      case _ hc =>
        simp only [Except.ok.injEq, Prod.mk.injEq] at h
        exact .inr ⟨h.1.symm, h.2.symm⟩
    case _ hcond =>
      simp only [Except.ok.injEq, Prod.mk.injEq] at h
      exact .inr ⟨h.1.symm, h.2.symm⟩
  · simp at h

theorem not_mem_of_contains_false {l : List String} {a : String}
    (h : l.contains a = false) : a ∉ l := by
  simpa using h

/-- One engine step preserves the store invariant. -/
theorem storeInv_step {s s' : KV} (hs : StoreInv s) (hst : Step s s') :
    StoreInv s' := by
  obtain ⟨hsw, hstx⟩ := hs
  cases hst with
  | create env s m n nm ps s' r h =>
    rw [createMultisigWallet_ok_iff] at h
    obtain ⟨⟨hint, hbound, hlen, hded⟩, hs', hr⟩ := h
    push_neg at hbound
    subst hs'
    constructor
    · intro k w2 hk
      simp only [createStoreOf, kvPut] at hk
      split at hk
      · simp only [Option.some.injEq, KVValue.wallet.injEq] at hk
        rw [← hk]
        exact hbound.2.1
      · split at hk
        · simp at hk
        · exact hsw k w2 hk
    · intro k t2 hk
      simp only [createStoreOf, kvPut] at hk
      split at hk
      · simp at hk
      · split at hk
        · simp at hk
        · exact hstx k t2 hk
  | initiate env s wid ra amount feeRate note s' r h =>
    obtain ⟨w, hw, hstat, hsigs, hrecv, hsigned, hhash, hbt, hreq, hs'⟩ :=
      initiateTransaction_ok_elim h
    subst hs'
    have hm : 0 < w.m := hsw _ w hw
    constructor
    · intro k w2 hk
      simp only [kvPut] at hk
      split at hk
      · simp at hk
      · exact hsw k w2 hk
    · intro k t2 hk
      simp only [kvPut] at hk
      split at hk
      · simp only [Option.some.injEq, KVValue.tx.injEq] at hk
        subst hk
        exact {
          recv_eq := by rw [hrecv, hsigs]; rfl
          keys_nodup := by rw [hsigs]; exact List.nodup_nil
          req_pos := by rw [hreq]; exact hm
          pending_lt := fun _ => by
            rw [hrecv, hreq]; exact_mod_cast hm
          signed_iff := by
            rw [hsigned, hstat]; simp [signedPhase]
          txHash_iff := by
            rw [hhash, hstat]; simp [broadcastPhase]
          btime_iff := by
            rw [hbt, hstat]; simp [broadcastPhase]
          txHash_ne := fun h2 hh => by rw [hhash] at hh; cases hh
        }
      · exact hstx k t2 hk
  | submit env s tid pk sigs s' r h =>
    obtain ⟨t, psbt2, ht, hstat, hpk, hcont, happ, hbr⟩ := submitSignature_ok_elim h
    have hinv := hstx _ t ht
    have hmem : pk ∉ t.signatures.map Prod.fst := not_mem_of_contains_false hcont
    have hnodup : ((t.signatures ++ [(pk, sigs)]).map Prod.fst).Nodup := by
      simp only [List.map_append, List.map_cons, List.map_nil]
      rw [List.nodup_append]
      refine ⟨hinv.keys_nodup, List.nodup_singleton pk, ?_⟩
      intro a ha hb
      simp only [List.mem_singleton] at hb
      subst hb
      exact hmem ha
    have hsignedz : t.signedTransaction = none := by
      have := hinv.signed_iff
      rw [hstat] at this
      simp [signedPhase] at this
      exact Option.not_isSome_iff_eq_none.mp (by simp [this])
    have hhashz : t.txHash = none := by
      have := hinv.txHash_iff
      rw [hstat] at this
      simp [broadcastPhase] at this
      exact Option.not_isSome_iff_eq_none.mp (by simp [this])
    have hbtz : t.broadcastTime = none := by
      have := hinv.btime_iff
      rw [hstat] at this
      simp [broadcastPhase] at this
      exact Option.not_isSome_iff_eq_none.mp (by simp [this])
    rcases hbr with ⟨hthr, hs', hr⟩ | ⟨hthr, hs', hr⟩ <;> subst hs' <;>
      refine ⟨fun k w2 hk => ?_, fun k t2 hk => ?_⟩
    · simp only [kvPut] at hk
      split at hk
      · simp [submitFinal, submitBase] at hk
      · exact hsw k w2 hk
    · simp only [kvPut] at hk
      split at hk
      · simp only [Option.some.injEq, KVValue.tx.injEq] at hk
        subst hk
        exact {
          recv_eq := rfl
          keys_nodup := hnodup
          req_pos := hinv.req_pos
          pending_lt := fun hp => by simp [submitFinal, submitBase] at hp
          signed_iff := by simp [submitFinal, submitBase, signedPhase]
          txHash_iff := by
            simp [submitFinal, submitBase, broadcastPhase, hhashz]
          btime_iff := by
            simp [submitFinal, submitBase, broadcastPhase, hbtz]
          txHash_ne := fun h2 hh => by
            simp only [submitFinal, submitBase, hhashz] at hh
            cases hh
        }
      · exact hstx k t2 hk
    · simp only [kvPut] at hk
      split at hk
      · simp [submitBase] at hk
      · exact hsw k w2 hk
    · simp only [kvPut] at hk
      split at hk
      · simp only [Option.some.injEq, KVValue.tx.injEq] at hk
        subst hk
        exact {
          recv_eq := rfl
          keys_nodup := hnodup
          req_pos := hinv.req_pos
          pending_lt := fun _ => by
            simp only [submitBase, List.length_append, List.length_cons,
              List.length_nil] at *
            push_neg at hthr
            exact_mod_cast hthr
          signed_iff := by
            simp [submitBase, hstat, hsignedz, signedPhase]
          txHash_iff := by
            simp [submitBase, hstat, hhashz, broadcastPhase]
          btime_iff := by
            simp [submitBase, hstat, hbtz, broadcastPhase]
          txHash_ne := fun h2 hh => by
            simp only [submitBase, hhashz] at hh
            cases hh
        }
      · exact hstx k t2 hk
  | cancel env s tid s' r h =>
    obtain ⟨t, ht, hstat, hs', hr⟩ := cancelTransaction_ok_elim h
    have hinv := hstx _ t ht
    have hsignedz : t.signedTransaction = none := by
      have := hinv.signed_iff
      rw [hstat] at this
      simp [signedPhase] at this
      exact Option.not_isSome_iff_eq_none.mp (by simp [this])
    have hhashz : t.txHash = none := by
      have := hinv.txHash_iff
      rw [hstat] at this
      simp [broadcastPhase] at this
      exact Option.not_isSome_iff_eq_none.mp (by simp [this])
    have hbtz : t.broadcastTime = none := by
      have := hinv.btime_iff
      rw [hstat] at this
      simp [broadcastPhase] at this
      exact Option.not_isSome_iff_eq_none.mp (by simp [this])
    subst hs'
    refine ⟨fun k w2 hk => ?_, fun k t2 hk => ?_⟩
    · simp only [kvPut] at hk
      split at hk
      · simp at hk
      · exact hsw k w2 hk
    · simp only [kvPut] at hk
      split at hk
      · simp only [Option.some.injEq, KVValue.tx.injEq] at hk
        subst hk
        exact {
          recv_eq := hinv.recv_eq
          keys_nodup := hinv.keys_nodup
          req_pos := hinv.req_pos
          pending_lt := fun hp => by simp at hp
          signed_iff := by simp [hsignedz, signedPhase]
          txHash_iff := by simp [hhashz, broadcastPhase]
          btime_iff := by simp [hbtz, broadcastPhase]
          txHash_ne := fun h2 hh => by simp [hhashz] at hh
        }
      · exact hstx k t2 hk
  | broadcast env s tid s' r h =>
    obtain ⟨t, txid, ht, hstat, htxid, hs'⟩ := broadcastTransaction_ok_elim h
    have hinv := hstx _ t ht
    have hsigned1 : t.signedTransaction.isSome := by
      rw [hinv.signed_iff, hstat]
      simp [signedPhase]
    subst hs'
    refine ⟨fun k w2 hk => ?_, fun k t2 hk => ?_⟩
    · simp only [kvPut] at hk
      split at hk
      · simp at hk
      · exact hsw k w2 hk
    · simp only [kvPut] at hk
      split at hk
      · simp only [Option.some.injEq, KVValue.tx.injEq] at hk
        subst hk
        exact {
          recv_eq := hinv.recv_eq
          keys_nodup := hinv.keys_nodup
          req_pos := hinv.req_pos
          pending_lt := fun hp => by simp at hp
          signed_iff := by simp [hsigned1, signedPhase]
          txHash_iff := by simp [broadcastPhase]
          btime_iff := by simp [broadcastPhase]
          txHash_ne := fun h2 hh => by
            simp only [Option.some.injEq] at hh
            rw [← hh]
            exact htxid
        }
      · exact hstx k t2 hk
  | getStatus env s tid s' r h =>
    obtain ⟨t, ht, hbr⟩ := getTransactionStatus_ok_elim h
    have hinv := hstx _ t ht
    rcases hbr with ⟨c, hstat, htr, hc, hpos, hs', hr⟩ | ⟨hs', hr⟩
    · have hsigned1 : t.signedTransaction.isSome := by
        rw [hinv.signed_iff, hstat]
        simp [signedPhase]
      have hhash1 : t.txHash.isSome := by
        rw [hinv.txHash_iff, hstat]
        simp [broadcastPhase]
      have hbt1 : t.broadcastTime.isSome := by
        rw [hinv.btime_iff, hstat]
        simp [broadcastPhase]
      subst hs'
      refine ⟨fun k w2 hk => ?_, fun k t2 hk => ?_⟩
      · simp only [kvPut] at hk
        split at hk
        · simp at hk
        · exact hsw k w2 hk
      · simp only [kvPut] at hk
        split at hk
        · simp only [Option.some.injEq, KVValue.tx.injEq] at hk
          subst hk
          exact {
            recv_eq := hinv.recv_eq
            keys_nodup := hinv.keys_nodup
            req_pos := hinv.req_pos
            pending_lt := fun hp => by simp at hp
            signed_iff := by simp [hsigned1, signedPhase]
            txHash_iff := by simp [hhash1, broadcastPhase]
            btime_iff := by simp [hbt1, broadcastPhase]
            txHash_ne := fun h2 hh => hinv.txHash_ne h2 hh
          }
        · exact hstx k t2 hk
    · subst hs'
      exact ⟨hsw, hstx⟩

/-- Every reachable store satisfies the invariant. -/
theorem reachable_storeInv {s : KV} (h : Reachable s) : StoreInv s := by
  induction h with
  | refl =>
    constructor
    · intro k w hk
      cases hk
    · intro k t hk
      cases hk
  | tail h1 h2 ih => exact storeInv_step ih h2

/-! ## Event-trace predicates -/

def isExtCall : Event → Bool
  | .extCall _ => true
  | .dbPut _ => false

/-- The trace contains no database write. -/
def noWrites (evs : List Event) : Bool := evs.all isExtCall

/-- No external call in the trace. -/
def noExtCalls (evs : List Event) : Bool := evs.all fun e => ! isExtCall e

/-- Every external-collaborator call precedes the first persistence
write. -/
def eventsOrdered : List Event → Bool
  | [] => true
  | .extCall _ :: rest => eventsOrdered rest
  | .dbPut _ :: rest => noExtCalls rest

theorem eventsOrdered_allExt_append {l : List Event}
    (h : ∀ e ∈ l, isExtCall e = true) (rest : List Event) :
    eventsOrdered (l ++ rest) = eventsOrdered rest := by
  induction l with
  | nil => rfl
  | cons e l ih =>
    cases e with
    | dbPut k => exact absurd (h _ (List.mem_cons_self _ _)) (by simp [isExtCall])
    | extCall n =>
      simp only [List.cons_append, eventsOrdered]
      exact ih fun e he => h e (List.mem_cons_of_mem _ he)

theorem noWrites_of_allExt {l : List Event}
    (h : ∀ e ∈ l, isExtCall e = true) : noWrites l = true :=
  List.all_eq_true.mpr h

theorem eventsOrdered_of_allExt {l : List Event}
    (h : ∀ e ∈ l, isExtCall e = true) : eventsOrdered l = true := by
  have h2 := eventsOrdered_allExt_append h []
  rw [List.append_nil] at h2
  rw [h2]
  rfl

/-- The signature-application loop emits only external calls. -/
theorem applySigs_events_ext (env : Env) (pk : HexString) :
    ∀ (psbt : Psbt) (i : Nat) (sigs : List HexString),
      ∀ e ∈ (applySigs env pk psbt i sigs).1, isExtCall e = true := by
  intro psbt i sigs
  induction sigs generalizing psbt i with
  | nil => intro e he; simp [applySigs] at he
  | cons sig rest ih =>
    intro e he
    simp only [applySigs] at he
    split at he
    · rcases List.mem_cons.mp he with h1 | h1
      · rw [h1]; rfl
      · exact ih _ _ e h1
    · rcases List.mem_cons.mp he with h1 | h1
      · rw [h1]; rfl
      · simp at h1

/-- Trace properties of `initiateTransaction`: all external calls precede
the single write, and a failed call performs no write. -/
theorem initiate_trace {env : Env} {s : KV} {wid ra : String}
    {amount feeRate : ℚ} {note : Option String} {tr : List Event}
    {res : Except String (KV × Transaction)}
    (h : initiateTransaction env s wid ra amount feeRate note = (tr, res)) :
    eventsOrdered tr = true ∧ ∀ e, res = .error e → noWrites tr = true := by
  have hext : ∀ (utxos : List Utxo),
      ∀ e ∈ ([Event.extCall "getUTXOsBlockbook",
        Event.extCall "initializeMultiSig"] ++
        utxos.map (fun _ => Event.extCall "psbt.addMultiSigInput") ++
        [Event.extCall "estimateVirtualSize"]), isExtCall e = true := by
    intro utxos e he
    rcases List.mem_append.mp he with h1 | h1
    · rcases List.mem_append.mp h1 with h2 | h2
      · fin_cases h2 <;> rfl
      · obtain ⟨a, _, h3⟩ := List.mem_map.mp h2
        rw [← h3]
        rfl
    · fin_cases h1
      rfl
  simp only [initiateTransaction] at h
  split at h
  · rw [Prod.mk.injEq] at h
    obtain ⟨h1, h2⟩ := h
    subst h1; subst h2
    exact ⟨rfl, fun e _ => rfl⟩
  split at h
  · rw [Prod.mk.injEq] at h
    obtain ⟨h1, h2⟩ := h
    subst h1; subst h2
    exact ⟨rfl, fun e _ => rfl⟩
  split at h
  · rw [Prod.mk.injEq] at h
    obtain ⟨h1, h2⟩ := h
    subst h1; subst h2
    exact ⟨rfl, fun e _ => rfl⟩
  split at h
  case _ w hw =>
    split at h
    · rw [Prod.mk.injEq] at h
      obtain ⟨h1, h2⟩ := h
      subst h1; subst h2
      exact ⟨rfl, fun e _ => rfl⟩
    case _ utxos hu =>
      split at h
      · rw [Prod.mk.injEq] at h
        obtain ⟨h1, h2⟩ := h
        subst h1; subst h2
        exact ⟨rfl, fun e _ => rfl⟩
      split at h
      · rw [Prod.mk.injEq] at h
        obtain ⟨h1, h2⟩ := h
        subst h1; subst h2
        exact ⟨eventsOrdered_of_allExt (hext utxos),
          fun e _ => noWrites_of_allExt (hext utxos)⟩
      case _ vSize hv =>
        split at h
        · rw [Prod.mk.injEq] at h
          obtain ⟨h1, h2⟩ := h
          subst h1; subst h2
          exact ⟨eventsOrdered_of_allExt (hext utxos),
            fun e _ => noWrites_of_allExt (hext utxos)⟩
        · rw [Prod.mk.injEq] at h
          obtain ⟨h1, h2⟩ := h
          subst h1; subst h2
          constructor
          · rw [eventsOrdered_allExt_append (hext utxos)]
            rfl
          · intro e he
            cases he
  · rw [Prod.mk.injEq] at h
    obtain ⟨h1, h2⟩ := h
    subst h1; subst h2
    exact ⟨rfl, fun e _ => rfl⟩

/-- Trace properties of `submitSignature`. -/
theorem submit_trace {env : Env} {s : KV} {tid pk : String}
    {sigs : List HexString} {tr : List Event}
    {res : Except String (KV × SubmitResult)}
    (h : submitSignature env s tid pk sigs = (tr, res)) :
    eventsOrdered tr = true ∧ ∀ e, res = .error e → noWrites tr = true := by
  simp only [submitSignature] at h
  split at h
  · rw [Prod.mk.injEq] at h
    obtain ⟨h1, h2⟩ := h
    subst h1; subst h2
    exact ⟨rfl, fun e _ => rfl⟩
  split at h
  case _ t ht =>
    split at h
    · rw [Prod.mk.injEq] at h
      obtain ⟨h1, h2⟩ := h
      subst h1; subst h2
      exact ⟨rfl, fun e _ => rfl⟩
    split at h
    case _ w hw =>
      split at h
      · rw [Prod.mk.injEq] at h
        obtain ⟨h1, h2⟩ := h
        subst h1; subst h2
        exact ⟨rfl, fun e _ => rfl⟩
      case _ hdup =>
        have hsigExt : ∀ e ∈ (applySigs env pk t.psbt 0 sigs).1,
            isExtCall e = true := applySigs_events_ext env pk t.psbt 0 sigs
        have hallExt : ∀ e ∈ Event.extCall "SecuxPsbt.FromBuffer" ::
            (applySigs env pk t.psbt 0 sigs).1, isExtCall e = true := by
          intro e he
          rcases List.mem_cons.mp he with h1 | h1
          · rw [h1]; rfl
          · exact hsigExt e h1
        split at h
        case _ sigEvents err happ =>
          rw [Prod.mk.injEq] at h
          obtain ⟨h1, h2⟩ := h
          subst h1; subst h2
          have hall : ∀ e ∈ [Event.extCall "SecuxPsbt.FromBuffer"] ++ sigEvents,
              isExtCall e = true := by
            intro e he
            have h3 : sigEvents = (applySigs env pk t.psbt 0 sigs).1 := by
              rw [happ]
            rcases List.mem_append.mp he with h1 | h1
            · fin_cases h1
              rfl
            · rw [h3] at h1
              exact hsigExt e h1
          exact ⟨eventsOrdered_of_allExt hall, fun e _ => noWrites_of_allExt hall⟩
        case _ sigEvents psbt2 happ =>
          have h3 : sigEvents = (applySigs env pk t.psbt 0 sigs).1 := by
            rw [happ]
          split at h <;>
            (rw [Prod.mk.injEq] at h
             obtain ⟨h1, h2⟩ := h
             subst h1; subst h2
             constructor
             · refine Eq.trans (eventsOrdered_allExt_append ?_ _) rfl
               intro e he
               rcases List.mem_append.mp he with h1 | h1
               · fin_cases h1
                 rfl
               · rw [h3] at h1
                 exact hsigExt e h1
             · intro e he
               cases he)
    · rw [Prod.mk.injEq] at h
      obtain ⟨h1, h2⟩ := h
      subst h1; subst h2
      exact ⟨rfl, fun e _ => rfl⟩
  · rw [Prod.mk.injEq] at h
    obtain ⟨h1, h2⟩ := h
    subst h1; subst h2
    exact ⟨rfl, fun e _ => rfl⟩

/-- Trace properties of `cancelTransaction`. -/
theorem cancel_trace {env : Env} {s : KV} {tid : String} {tr : List Event}
    {res : Except String (KV × CancelResult)}
    (h : cancelTransaction env s tid = (tr, res)) :
    eventsOrdered tr = true ∧ ∀ e, res = .error e → noWrites tr = true := by
  simp only [cancelTransaction] at h
  split at h
  case _ t ht =>
    split at h <;>
      (rw [Prod.mk.injEq] at h
       obtain ⟨h1, h2⟩ := h
       subst h1; subst h2)
    · exact ⟨rfl, fun e _ => rfl⟩
    · exact ⟨rfl, fun e he => by cases he⟩
  · rw [Prod.mk.injEq] at h
    obtain ⟨h1, h2⟩ := h
    subst h1; subst h2
    exact ⟨rfl, fun e _ => rfl⟩

/-- Trace properties of `broadcastTransaction`. -/
theorem broadcast_trace {env : Env} {s : KV} {tid : String} {tr : List Event}
    {res : Except String (KV × BroadcastResult)}
    (h : broadcastTransaction env s tid = (tr, res)) :
    eventsOrdered tr = true ∧ ∀ e, res = .error e → noWrites tr = true := by
  simp only [broadcastTransaction] at h
  split at h
  case _ t ht =>
    split at h
    · rw [Prod.mk.injEq] at h
      obtain ⟨h1, h2⟩ := h
      subst h1; subst h2
      exact ⟨rfl, fun e _ => rfl⟩
    · split at h <;>
        (rw [Prod.mk.injEq] at h
         obtain ⟨h1, h2⟩ := h
         subst h1; subst h2)
      · exact ⟨rfl, fun e _ => rfl⟩
      · exact ⟨rfl, fun e he => by cases he⟩
  · rw [Prod.mk.injEq] at h
    obtain ⟨h1, h2⟩ := h
    subst h1; subst h2
    exact ⟨rfl, fun e _ => rfl⟩

/-- Trace properties of `getTransactionStatus`. -/
theorem getStatus_trace {env : Env} {s : KV} {tid : String} {tr : List Event}
    {res : Except String (KV × StatusSummary)}
    (h : getTransactionStatus env s tid = (tr, res)) :
    eventsOrdered tr = true ∧ ∀ e, res = .error e → noWrites tr = true := by
  simp only [getTransactionStatus] at h
  split at h
  case _ t ht =>
    split at h
    · split at h
      · split at h <;>
          (rw [Prod.mk.injEq] at h
           obtain ⟨h1, h2⟩ := h
           subst h1; subst h2)
        · exact ⟨rfl, fun e he => by cases he⟩
        · exact ⟨rfl, fun e he => by cases he⟩
      · rw [Prod.mk.injEq] at h
        obtain ⟨h1, h2⟩ := h
        subst h1; subst h2
        exact ⟨rfl, fun e he => by cases he⟩
    · rw [Prod.mk.injEq] at h
      obtain ⟨h1, h2⟩ := h
      subst h1; subst h2
      exact ⟨rfl, fun e he => by cases he⟩
  · rw [Prod.mk.injEq] at h
    obtain ⟨h1, h2⟩ := h
    subst h1; subst h2
    exact ⟨rfl, fun e _ => rfl⟩

/-- The four legal status transitions of the specification's state
machine. -/
def LegalEdge (a b : TransactionStatus) : Prop :=
  (a = .pending ∧ b = .allsigned) ∨ (a = .pending ∧ b = .cancelled) ∨
  (a = .allsigned ∧ b = .broadcasted) ∨ (a = .broadcasted ∧ b = .finished)

instance (a b : TransactionStatus) : Decidable (LegalEdge a b) := by
  unfold LegalEdge; infer_instance

/-- Status evolution of a stored record under one engine step: unchanged,
one of the four legal edges, or replacement by a fresh pending record when
`initiateTransaction` re-derives a colliding transaction id. -/
theorem step_transitions {s s' : KV} (hst : Step s s') (id : String)
    (t t' : Transaction) (ht : s (txKey id) = some (.tx t))
    (ht' : s' (txKey id) = some (.tx t')) :
    t.status = t'.status ∨ LegalEdge t.status t'.status ∨
      (t'.status = .pending ∧ t'.signatures = [] ∧ t'.signaturesReceived = 0) := by
  cases hst with
  | create env s m n nm ps s' r h =>
    rw [createMultisigWallet_ok_iff] at h
    obtain ⟨_, hs', _⟩ := h
    subst hs'
    simp only [createStoreOf, kvPut] at ht'
    split at ht'
    · simp at ht'
    split at ht'
    · simp at ht'
    · rw [ht] at ht'
      have h2 : t = t' := by simpa using ht'
      rw [h2]
      exact .inl rfl
  | initiate env s wid ra amount feeRate note s' r h =>
    obtain ⟨w, hw, hstat, hsigs, hrecv, _, _, _, _, hs'⟩ :=
      initiateTransaction_ok_elim h
    subst hs'
    simp only [kvPut] at ht'
    split at ht'
    · have h2 : r = t' := by simpa using ht'
      subst h2
      exact .inr (.inr ⟨hstat, hsigs, hrecv⟩)
    · rw [ht] at ht'
      have h2 : t = t' := by simpa using ht'
      rw [h2]
      exact .inl rfl
  | submit env s tid pk sigs s' r h =>
    obtain ⟨t0, psbt2, ht0, hstat, _, _, _, hbr⟩ := submitSignature_ok_elim h
    have htg : kvGet s (txKey id) = some (KVValue.tx t) := ht
    rcases hbr with ⟨hthr, hs', _⟩ | ⟨hthr, hs', _⟩ <;> subst hs' <;>
        simp only [kvPut] at ht' <;> split at ht'
    case _ hcond =>
      rw [hcond, ht0] at htg
      have h2 : t0 = t := by simpa using htg
      have h3 : submitFinal env t0 pk sigs psbt2 = t' := by simpa using ht'
      subst h2
      rw [hstat, ← h3]
      exact .inr (.inl (.inl ⟨rfl, rfl⟩))
    case _ hcond =>
      rw [ht] at ht'
      have h2 : t = t' := by simpa using ht'
      rw [h2]
      exact .inl rfl
    case _ hcond =>
      rw [hcond, ht0] at htg
      have h2 : t0 = t := by simpa using htg
      have h3 : submitBase t0 pk sigs psbt2 = t' := by simpa using ht'
      subst h2
      rw [← h3]
      exact .inl (by simp [submitBase])
    case _ hcond =>
      rw [ht] at ht'
      have h2 : t = t' := by simpa using ht'
      rw [h2]
      exact .inl rfl
  | cancel env s tid s' r h =>
    obtain ⟨t0, ht0, hstat, hs', _⟩ := cancelTransaction_ok_elim h
    have htg : kvGet s (txKey id) = some (KVValue.tx t) := ht
    subst hs'
    simp only [kvPut] at ht'
    split at ht'
    case _ hcond =>
      rw [hcond, ht0] at htg
      have h2 : t0 = t := by simpa using htg
      have h3 : { t0 with status := TransactionStatus.cancelled } = t' := by
        simpa using ht'
      subst h2
      rw [hstat, ← h3]
      exact .inr (.inl (.inr (.inl ⟨rfl, rfl⟩)))
    case _ hcond =>
      rw [ht] at ht'
      have h2 : t = t' := by simpa using ht'
      rw [h2]
      exact .inl rfl
  | broadcast env s tid s' r h =>
    obtain ⟨t0, txid, ht0, hstat, _, hs'⟩ := broadcastTransaction_ok_elim h
    have htg : kvGet s (txKey id) = some (KVValue.tx t) := ht
    subst hs'
    simp only [kvPut] at ht'
    split at ht'
    case _ hcond =>
      rw [hcond, ht0] at htg
      have h2 : t0 = t := by simpa using htg
      have h3 : { t0 with
          txHash := some txid
          status := TransactionStatus.broadcasted
          broadcastTime := some env.now } = t' := by
        simpa using ht'
      subst h2
      rw [hstat, ← h3]
      exact .inr (.inl (.inr (.inr (.inl ⟨rfl, rfl⟩))))
    case _ hcond =>
      rw [ht] at ht'
      have h2 : t = t' := by simpa using ht'
      rw [h2]
      exact .inl rfl
  | getStatus env s tid s' r h =>
    obtain ⟨t0, ht0, hbr⟩ := getTransactionStatus_ok_elim h
    have htg : kvGet s (txKey id) = some (KVValue.tx t) := ht
    rcases hbr with ⟨c, hstat, _, _, _, hs', _⟩ | ⟨hs', _⟩
    · subst hs'
      simp only [kvPut] at ht'
      split at ht'
      case _ hcond =>
        rw [hcond, ht0] at htg
        have h2 : t0 = t := by simpa using htg
        have h3 : { t0 with status := TransactionStatus.finished } = t' := by
          simpa using ht'
        subst h2
        rw [hstat, ← h3]
        exact .inr (.inl (.inr (.inr (.inr ⟨rfl, rfl⟩))))
      case _ hcond =>
        rw [ht] at ht'
        have h2 : t = t' := by simpa using ht'
        rw [h2]
        exact .inl rfl
    · subst hs'
      rw [ht] at ht'
      have h2 : t = t' := by simpa using ht'
      rw [h2]
      exact .inl rfl

/-! ## A concrete executable scenario

A 2-of-3 wallet with keys `A`, `B`, `C` under an environment whose hash and
encoding collaborators are identities and whose network collaborator serves
one 100000-satoshi UTXO; used as concrete input for the witnesses and
counterexamples below. -/

theorem kvGet_kvPut_self (s : KV) (k : String) (v : KVValue) :
    kvGet (kvPut s k v) k = some v := by
  simp [kvGet, kvPut]

theorem kvGet_kvPut_ne {k k2 : String} (s : KV) (v : KVValue) (h : k2 ≠ k) :
    kvGet (kvPut s k v) k2 = kvGet s k2 := by
  simp [kvGet, kvPut, h]

def exEnv : Env := {
  hexEnc := fun x => x
  sha256hex := fun x => x
  base58 := fun x => x
  initializeMultiSig := fun _ _ => ("ADDR", "REDEEM")
  psbtSerialize := fun _ => "PSBT"
  sigAccept := fun _ _ _ _ => true
  finalizeHex := fun _ => "RAWTX"
  now := "T0"
  utxosResp := .ok [⟨"u0", 0, 100000⟩]
  vSizeResp := .ok 100
  broadcastResp := .ok "TXID"
  txDetailsResp := some 1
}

def exPs : List Participant := [⟨"A", "u1"⟩, ⟨"B", "u2"⟩, ⟨"C", "u3"⟩]

def exWid : String := walletIdOf exEnv exPs

def exWallet : Wallet := walletDataOf exEnv 2 3 none exPs

def exCreateRes : CreateResult := createResultOf exEnv 2 3 none exPs

def exS1 : KV := createStoreOf exEnv kvEmpty 2 3 none exPs

theorem exCreateValid : CreateValid 2 3 exPs := by
  refine ⟨⟨by decide, by decide⟩, by norm_num, ?_, ?_⟩
  · have h : exPs.length = 3 := by decide
    rw [h]
    norm_num
  · have h : ((exPs.map (·.publicKey)).dedup.length) = 3 := by decide
    rw [h]
    norm_num

theorem exRun1_eq : (createMultisigWallet exEnv kvEmpty 2 3 none exPs).2 =
    .ok (exS1, exCreateRes) :=
  (createMultisigWallet_ok_iff exEnv kvEmpty 2 3 none exPs exS1 exCreateRes).mpr
    ⟨exCreateValid, rfl, rfl⟩

theorem exReach1 : Reachable exS1 :=
  Relation.ReflTransGen.single
    (Step.create exEnv kvEmpty 2 3 none exPs exS1 exCreateRes exRun1_eq)

def exUtxo : Utxo := ⟨"u0", 0, 100000⟩

def exPsbtI : Psbt := {
  m := 2
  pubkeys := ["A", "B", "C"]
  inputs := [exUtxo]
  outputs := [⟨"RCPT", 99900⟩]
  addedSigs := [] }

def exTx2 : Transaction := {
  transactionId := "PSBT"
  walletId := exWid
  recipientAddress := "RCPT"
  amount := 99900
  status := .pending
  psbt := exPsbtI
  inputCount := 1
  requiredSignatures := 2
  signatures := []
  signaturesReceived := 0
  initiatedTime := "T0"
  note := none }

/-- `initiateTransaction` in the example environment, against any store
holding the example wallet: a 99900-satoshi transfer whose fee (100 vbytes
at rate 1) exactly exhausts the single 100000-satoshi input, so no change
output is added. -/
theorem exInitiateRun (s : KV)
    (hw : kvGet s (walletKey exWid) = some (.wallet exWallet)) :
    (initiateTransaction exEnv s exWid "RCPT" 99900 1 none).2 =
      .ok (kvPut s (txKey "PSBT") (.tx exTx2), exTx2) := by
  simp only [initiateTransaction, hw]
  norm_num [exEnv, exWallet, walletDataOf, exPs, customHash, exTx2, exPsbtI,
    exUtxo]
  rw [if_neg (by decide : ¬ ("RCPT" : String) = "")]

def exS2 : KV := kvPut exS1 (txKey "PSBT") (.tx exTx2)

theorem exS1_wallet : kvGet exS1 (walletKey exWid) = some (.wallet exWallet) :=
  kvGet_kvPut_self _ _ _

theorem exRun2_eq : (initiateTransaction exEnv exS1 exWid "RCPT" 99900 1
    none).2 = .ok (exS2, exTx2) :=
  exInitiateRun exS1 exS1_wallet

theorem exReach2 : Reachable exS2 :=
  exReach1.tail
    (Step.initiate exEnv exS1 exWid "RCPT" 99900 1 none exS2 exTx2 exRun2_eq)

def exPsbt3 : Psbt := { exPsbtI with addedSigs := [⟨0, "B", "s0"⟩] }

def exTx3 : Transaction := { exTx2 with
  signatures := [("B", ["s0"])]
  signaturesReceived := 1
  psbt := exPsbt3 }

def exS3 : KV := kvPut exS2 (txKey "PSBT") (.tx exTx3)

def exRes3 : SubmitResult := mkSubmitResult exTx3

theorem exS2_tx : kvGet exS2 (txKey "PSBT") = some (.tx exTx2) :=
  kvGet_kvPut_self _ _ _

theorem exS2_wallet : kvGet exS2 (walletKey exWid) =
    some (.wallet exWallet) := by
  have h : kvGet exS2 (walletKey exWid) = kvGet exS1 (walletKey exWid) :=
    kvGet_kvPut_ne _ _ (by decide)
  rw [h]
  exact exS1_wallet

/-- First signer `B` submits one signature: one of two required, record
stays pending. -/
theorem exRun3_eq : (submitSignature exEnv exS2 "PSBT" "B" ["s0"]).2 =
    .ok (exS3, exRes3) := by
  simp only [submitSignature]
  rw [if_neg (by decide : ¬ ("B" : String) = "")]
  simp only [exS2_tx]
  norm_num [exTx2, exS2_wallet, applySigs, exEnv, exS3, exTx3, exPsbt3,
    exRes3, mkSubmitResult, exPsbtI]

theorem exReach3 : Reachable exS3 :=
  exReach2.tail (Step.submit exEnv exS2 "PSBT" "B" ["s0"] exS3 exRes3 exRun3_eq)

def exPsbt4 : Psbt := { exPsbtI with
  addedSigs := [⟨0, "B", "s0"⟩, ⟨0, "A", "s1"⟩] }

def exTx4 : Transaction := { exTx2 with
  signatures := [("B", ["s0"]), ("A", ["s1"])]
  signaturesReceived := 2
  psbt := exPsbt4
  status := .allsigned
  signedTransaction := some "RAWTX" }

def exS4 : KV := kvPut exS3 (txKey "PSBT") (.tx exTx4)

def exRes4 : SubmitResult := mkSubmitResult exTx4

theorem exS3_tx : kvGet exS3 (txKey "PSBT") = some (.tx exTx3) :=
  kvGet_kvPut_self _ _ _

theorem exS3_wallet : kvGet exS3 (walletKey exWid) =
    some (.wallet exWallet) := by
  have h : kvGet exS3 (walletKey exWid) = kvGet exS2 (walletKey exWid) :=
    kvGet_kvPut_ne _ _ (by decide)
  rw [h]
  exact exS2_wallet

/-- Second signer `A` submits: the threshold of two is reached, the record
is finalized to `allsigned` with the signed raw transaction. -/
theorem exRun4_eq : (submitSignature exEnv exS3 "PSBT" "A" ["s1"]).2 =
    .ok (exS4, exRes4) := by
  simp only [submitSignature]
  rw [if_neg (by decide : ¬ ("A" : String) = "")]
  simp only [exS3_tx]
  norm_num [exTx3, exTx2, exS3_wallet, applySigs, exEnv, exS4, exTx4,
    exPsbt4, exRes4, mkSubmitResult, exPsbt3, exPsbtI, submitFinal, submitBase]
  rw [if_neg (by decide : ¬ ("A" : String) = "B")]

theorem exReach4 : Reachable exS4 :=
  exReach3.tail (Step.submit exEnv exS3 "PSBT" "A" ["s1"] exS4 exRes4 exRun4_eq)

def exTx5 : Transaction := { exTx4 with
  txHash := some "TXID"
  status := .broadcasted
  broadcastTime := some "T0" }

def exS5 : KV := kvPut exS4 (txKey "PSBT") (.tx exTx5)

def exRes5 : BroadcastResult := {
  transactionId := "PSBT"
  status := .broadcasted
  txHash := "TXID"
  broadcastTime := some "T0"
  message := "Transaction broadcast successfully" }

theorem exS4_tx : kvGet exS4 (txKey "PSBT") = some (.tx exTx4) :=
  kvGet_kvPut_self _ _ _

/-- Broadcasting the finalized transaction: the network returns TXID. -/
theorem exRun5_eq : (broadcastTransaction exEnv exS4 "PSBT").2 =
    .ok (exS5, exRes5) := by
  simp only [broadcastTransaction, exS4_tx]
  norm_num [exTx4, exTx2, utilsBroadcastTransaction, exEnv, exS5, exTx5,
    exRes5, exPsbt4, exPsbtI]
  rw [if_neg (by decide : ¬ ("TXID" : String) = "")]

theorem exReach5 : Reachable exS5 :=
  exReach4.tail (Step.broadcast exEnv exS4 "PSBT" exS5 exRes5 exRun5_eq)

def exTx6 : Transaction := { exTx5 with status := .finished }

def exS6 : KV := kvPut exS5 (txKey "PSBT") (.tx exTx6)

theorem exS5_tx : kvGet exS5 (txKey "PSBT") = some (.tx exTx5) :=
  kvGet_kvPut_self _ _ _

/-- Polling the broadcasted transaction with one confirmation: the record
is persisted as confirmed. -/
theorem exRun6_eq : (getTransactionStatus exEnv exS5 "PSBT").2 =
    .ok (exS6, mkSummary exTx6) := by
  simp only [getTransactionStatus, exS5_tx]
  norm_num [exTx5, exTx4, exTx2, truthyStr, exEnv, exS6, exTx6]
  rw [if_neg (by decide : ¬ ("TXID" : String) = "")]

theorem exReach6 : Reachable exS6 :=
  exReach5.tail
    (Step.getStatus exEnv exS5 "PSBT" exS6 (mkSummary exTx6) exRun6_eq)

/-! ## Claim theorems -/

/-- C1: in every reachable store, every transaction record in pending
status has `signaturesReceived` equal to the number of entries in its
`signatures` map and at most `requiredSignatures`; and on any successful
`submitSignature` call on that record whose recorded signer count reaches
`requiredSignatures`, the same call finalizes the template into
`signedTransaction` and sets the status to `all_signed`. -/
theorem c1_signature_accounting_and_threshold_finalization
    (s : KV) (hreach : Reachable s) (id : String) (t : Transaction)
    (ht : kvGet s (txKey id) = some (.tx t)) :
    (t.status = .pending →
      t.signaturesReceived = t.signatures.length ∧
      (t.signaturesReceived : ℚ) ≤ t.requiredSignatures) ∧
    (∀ env pk sigs s' r,
      (submitSignature env s id pk sigs).2 = .ok (s', r) →
      t.requiredSignatures ≤ ((t.signatures.length + 1 : ℕ) : ℚ) →
      r.status = .allsigned ∧
      ∃ t', kvGet s' (txKey id) = some (.tx t') ∧ t'.status = .allsigned ∧
        t'.signedTransaction = some (env.finalizeHex t'.psbt)) := by
  have hinv := (reachable_storeInv hreach).2 _ t ht
  constructor
  · intro hp
    exact ⟨hinv.recv_eq, le_of_lt (hinv.pending_lt hp)⟩
  · intro env pk sigs s' r hok hthr
    obtain ⟨t0, psbt2, ht0, hstat, hpk, hcont, happ, hbr⟩ :=
      submitSignature_ok_elim hok
    rw [ht0] at ht
    have h2 : t0 = t := by simpa using ht
    subst h2
    rcases hbr with ⟨_, hs', hr⟩ | ⟨hthr2, _, _⟩
    · subst hs'
      subst hr
      exact ⟨rfl, submitFinal env t0 pk sigs psbt2,
        kvGet_kvPut_self _ _ _, rfl, rfl⟩
    · exact absurd hthr hthr2

/-- Witness for C1 at the reachable one-of-two-signatures state. -/
theorem c1_witness :
    exTx3.signaturesReceived = exTx3.signatures.length ∧
    (exTx3.signaturesReceived : ℚ) ≤ exTx3.requiredSignatures :=
  (c1_signature_accounting_and_threshold_finalization exS3 exReach3 "PSBT"
    exTx3 exS3_tx).1 rfl

/-- C5: in every reachable store, a transaction record's
`signedTransaction` is present if and only if its status is `all_signed`,
`broadcasted` or `confirmed`, and its `txHash` and `broadcastTime` are
present if and only if its status is `broadcasted` or `confirmed`. -/
theorem c5_field_presence_invariant (s : KV) (hreach : Reachable s)
    (k : String) (t : Transaction) (ht : s k = some (.tx t)) :
    (t.signedTransaction.isSome ↔
      (t.status = .allsigned ∨ t.status = .broadcasted ∨
        t.status = .finished)) ∧
    (t.txHash.isSome ↔ (t.status = .broadcasted ∨ t.status = .finished)) ∧
    (t.broadcastTime.isSome ↔
      (t.status = .broadcasted ∨ t.status = .finished)) := by
  have hinv := (reachable_storeInv hreach).2 _ t ht
  exact ⟨hinv.signed_iff, hinv.txHash_iff, hinv.btime_iff⟩

/-- Witness for C5 at the reachable `allsigned` state. -/
theorem c5_witness :
    (exTx4.signedTransaction.isSome ↔
      (exTx4.status = .allsigned ∨ exTx4.status = .broadcasted ∨
        exTx4.status = .finished)) ∧
    (exTx4.txHash.isSome ↔
      (exTx4.status = .broadcasted ∨ exTx4.status = .finished)) ∧
    (exTx4.broadcastTime.isSome ↔
      (exTx4.status = .broadcasted ∨ exTx4.status = .finished)) :=
  c5_field_presence_invariant exS4 exReach4 (txKey "PSBT") exTx4 exS4_tx

/-- C4: on a pending transaction whose `signatures` map already contains
the submitted public key, `submitSignature` fails with the duplicate-signer
error and performs no database write, leaving the persisted record (and in
particular `signaturesReceived`) unchanged. -/
theorem c4_duplicate_signer_rejected (env : Env) (s : KV) (tid pk : String)
    (sigs : List HexString) (t : Transaction) (w : Wallet)
    (ht : kvGet s (txKey tid) = some (.tx t)) (hp : t.status = .pending)
    (hw : kvGet s (walletKey t.walletId) = some (.wallet w))
    (hpk : pk ≠ "")
    (hdup : (t.signatures.map Prod.fst).contains pk = true) :
    (submitSignature env s tid pk sigs).2 =
      .error ("User with public key " ++ pk ++
        " has already signed this transaction.") ∧
    noWrites (submitSignature env s tid pk sigs).1 = true := by
  simp only [submitSignature, ht, hw]
  rw [if_neg hpk, if_neg (not_not_intro hp), if_pos hdup]
  exact ⟨rfl, rfl⟩

/-- Witness for C4: signer `B` submits twice in the example scenario. -/
theorem c4_witness :
    (submitSignature exEnv exS3 "PSBT" "B" ["zz"]).2 =
      .error ("User with public key " ++ "B" ++
        " has already signed this transaction.") ∧
    noWrites (submitSignature exEnv exS3 "PSBT" "B" ["zz"]).1 = true :=
  c4_duplicate_signer_rejected exEnv exS3 "PSBT" "B" ["zz"] exTx3 exWallet
    exS3_tx rfl exS3_wallet (by decide) (by decide)

/-- C10: `submitSignature` never checks the submitted list against
`inputCount`: on any pending transaction (any `inputCount`) and any public
key not yet in its map, submitting an empty signatures array succeeds
whenever the resulting signer count is still below `requiredSignatures` —
the signer is recorded with an empty per-input list and
`signaturesReceived` is incremented. -/
theorem c10_empty_signature_list_counts (env : Env) (s : KV)
    (tid pk : String) (t : Transaction) (w : Wallet)
    (ht : kvGet s (txKey tid) = some (.tx t)) (hp : t.status = .pending)
    (hw : kvGet s (walletKey t.walletId) = some (.wallet w))
    (hpk : pk ≠ "")
    (hnd : (t.signatures.map Prod.fst).contains pk = false)
    (hlt : ((t.signatures.length + 1 : ℕ) : ℚ) < t.requiredSignatures) :
    ∃ t', (submitSignature env s tid pk []).2 =
        .ok (kvPut s (txKey tid) (.tx t'), mkSubmitResult t') ∧
      t'.status = .pending ∧
      t'.signatures = t.signatures ++ [(pk, [])] ∧
      t'.signaturesReceived = t.signatures.length + 1 := by
  simp only [submitSignature, ht, hw, applySigs]
  rw [if_neg hpk, if_neg (not_not_intro hp), if_neg (by rw [hnd]; decide)]
  rw [if_neg (by
    simp only [List.length_append, List.length_singleton]
    exact not_le.mpr hlt)]
  exact ⟨submitBase t pk [] t.psbt, rfl, by simp [submitBase, hp],
    by simp [submitBase], by simp [submitBase]⟩

/-- Witness for C10: an empty signature list from `B` on the freshly
initiated 2-of-3 transaction is accepted and counted. -/
theorem c10_witness :
    ∃ t', (submitSignature exEnv exS2 "PSBT" "B" []).2 =
        .ok (kvPut exS2 (txKey "PSBT") (.tx t'), mkSubmitResult t') ∧
      t'.status = .pending ∧
      t'.signatures = exTx2.signatures ++ [("B", [])] ∧
      t'.signaturesReceived = exTx2.signatures.length + 1 :=
  c10_empty_signature_list_counts exEnv exS2 "PSBT" "B" exTx2 exWallet
    exS2_tx rfl exS2_wallet (by decide) (by decide) (by norm_num [exTx2])

theorem dedup_length_eq_iff {l : List String} :
    l.dedup.length = l.length ↔ l.Nodup := by
  constructor
  · intro h
    rw [← List.dedup_eq_self]
    exact (List.dedup_sublist l).eq_of_length h
  · intro h
    rw [List.dedup_eq_self.mpr h]

/-- C6 (amended): `createMultisigWallet` passes validation — and then
succeeds — exactly when `m` and `n` are integers, both positive, `m ≤ n`,
the participant list has exactly `n` entries, and the public keys are
pairwise distinct; no upper cap on `n` (such as `n ≤ 10`) is enforced. -/
theorem c6_amended_create_validation (env : Env) (s : KV) (m n : ℚ)
    (nm : Option String) (ps : List Participant) :
    (∃ s' r, (createMultisigWallet env s m n nm ps).2 = .ok (s', r)) ↔
      ((m.isInt ∧ n.isInt) ∧ 0 < m ∧ 0 < n ∧ m ≤ n ∧
        (ps.length : ℚ) = n ∧ (ps.map (·.publicKey)).Nodup) := by
  constructor
  · rintro ⟨s', r, h⟩
    rw [createMultisigWallet_ok_iff] at h
    obtain ⟨⟨h1, h2, h3, h4⟩, -, -⟩ := h
    push_neg at h2
    refine ⟨h1, h2.2.1, h2.2.2, h2.1, h3, ?_⟩
    rw [← dedup_length_eq_iff]
    have hmap : ((ps.map (·.publicKey)).length : ℚ) = n := by
      rw [List.length_map]
      exact h3
    exact_mod_cast h4.trans hmap.symm
  · rintro ⟨h1, hm, hn, hmn, hlen, hnodup⟩
    refine ⟨_, _, (createMultisigWallet_ok_iff env s m n nm ps _ _).mpr
      ⟨⟨h1, ?_, hlen, ?_⟩, rfl, rfl⟩⟩
    · push_neg
      exact ⟨hmn, hm, hn⟩
    · have h : (ps.map (·.publicKey)).dedup.length =
          (ps.map (·.publicKey)).length := dedup_length_eq_iff.mpr hnodup
      rw [h, List.length_map]
      exact hlen

def exPs11 : List Participant :=
  [⟨"k01", ""⟩, ⟨"k02", ""⟩, ⟨"k03", ""⟩, ⟨"k04", ""⟩, ⟨"k05", ""⟩,
   ⟨"k06", ""⟩, ⟨"k07", ""⟩, ⟨"k08", ""⟩, ⟨"k09", ""⟩, ⟨"k10", ""⟩,
   ⟨"k11", ""⟩]

/-- Counterexample to C6 as stated: a 2-of-11 wallet (n = 11 > 10, with 11
pairwise-distinct keys) passes validation and is created successfully,
although the claim says any `n > 10` must fail with a `ValidationError`. -/
theorem c6_counterexample :
    (10 : ℚ) < 11 ∧
    ∃ s' r, (createMultisigWallet exEnv kvEmpty 2 11 none exPs11).2 =
      .ok (s', r) := by
  refine ⟨by norm_num, _, _, (createMultisigWallet_ok_iff exEnv kvEmpty 2 11
    none exPs11 _ _).mpr ⟨?_, rfl, rfl⟩⟩
  refine ⟨⟨by decide, by decide⟩, by norm_num, ?_, ?_⟩
  · have h : exPs11.length = 11 := by decide
    rw [h]
    norm_num
  · have h : ((exPs11.map (·.publicKey)).dedup.length) = 11 := by decide
    rw [h]
    norm_num

/-- Witness for C6 (amended): the 2-of-3 example parameters satisfy the
validation conditions and creation succeeds. -/
theorem c6_witness :
    ∃ s' r, (createMultisigWallet exEnv kvEmpty 2 3 (some "W") exPs).2 =
      .ok (s', r) :=
  (c6_amended_create_validation exEnv kvEmpty 2 3 (some "W") exPs).mpr
    ⟨⟨by decide, by decide⟩, by norm_num, by norm_num, by norm_num,
      by have h : exPs.length = 3 := by decide
         rw [h]; norm_num,
      by decide⟩

/-- C7: for a fixed environment and fixed `(m, n, ordered participants)`,
repeated `createMultisigWallet` calls (any store, any name) derive the same
`walletId` and `address`, and the `walletId` equals the
hash-then-Base58-encode (`customHash`) of the key fingerprint — the public
keys joined in supplied order with the `-` separator and hashed — joined
with the fixed `#secux_btc_multisig` domain-separation suffix. -/
theorem c7_wallet_id_determinism (env : Env) (s1 s2 : KV) (m n : ℚ)
    (nm1 nm2 : Option String) (ps : List Participant)
    (s1' s2' : KV) (r1 r2 : CreateResult)
    (h1 : (createMultisigWallet env s1 m n nm1 ps).2 = .ok (s1', r1))
    (h2 : (createMultisigWallet env s2 m n nm2 ps).2 = .ok (s2', r2)) :
    r1.walletId = r2.walletId ∧ r1.address = r2.address ∧
    r1.walletId = customHash env (customHash env
      (String.intercalate "-" (ps.map (·.publicKey))) ++
      "#secux_btc_multisig") := by
  rw [createMultisigWallet_ok_iff] at h1 h2
  obtain ⟨-, -, hr1⟩ := h1
  obtain ⟨-, -, hr2⟩ := h2
  subst hr1
  subst hr2
  exact ⟨rfl, rfl, rfl⟩

theorem exRun1b_eq : (createMultisigWallet exEnv exS1 2 3 (some "W") exPs).2 =
    .ok (createStoreOf exEnv exS1 2 3 (some "W") exPs,
      createResultOf exEnv 2 3 (some "W") exPs) :=
  (createMultisigWallet_ok_iff exEnv exS1 2 3 (some "W") exPs _ _).mpr
    ⟨exCreateValid, rfl, rfl⟩

/-- Witness for C7: two creations of the example wallet (fresh store and
populated store, different names) agree on `walletId` and `address`. -/
theorem c7_witness :
    exCreateRes.walletId =
      (createResultOf exEnv 2 3 (some "W") exPs).walletId ∧
    exCreateRes.address =
      (createResultOf exEnv 2 3 (some "W") exPs).address ∧
    exCreateRes.walletId = customHash exEnv (customHash exEnv
      (String.intercalate "-" (exPs.map (·.publicKey))) ++
      "#secux_btc_multisig") :=
  c7_wallet_id_determinism exEnv kvEmpty exS1 2 3 none (some "W") exPs _ _
    _ _ exRun1_eq exRun1b_eq

/-- C2 (amended): under any engine step, a stored record's status either
stays unchanged or moves along one of the four legal edges
(pending→all_signed via submitSignature, pending→cancelled via
cancelTransaction, all_signed→broadcasted via broadcastTransaction,
broadcasted→confirmed via getTransactionStatus) — except that
`initiateTransaction` may replace a record whose derived transaction id
collides with a fresh pending record; and submitSignature,
cancelTransaction and broadcastTransaction attempted in any other status
fail with an error naming the current state (submitSignature and
cancelTransaction also name the required pending state, broadcastTransaction
only says the transaction is not complete). -/
theorem c2_amended_state_transitions :
    (∀ s s', Step s s' → ∀ id t t', s (txKey id) = some (KVValue.tx t) →
      s' (txKey id) = some (KVValue.tx t') →
      t.status = t'.status ∨ LegalEdge t.status t'.status ∨
        (t'.status = .pending ∧ t'.signatures = [] ∧
          t'.signaturesReceived = 0)) ∧
    (∀ env s id pk sigs t, pk ≠ "" →
      kvGet s (txKey id) = some (KVValue.tx t) → t.status ≠ .pending →
      (submitSignature env s id pk sigs).2 = .error
        ("Transaction is not in pending_signatures state. Current: " ++
          statusStr t.status)) ∧
    (∀ env s id t, kvGet s (txKey id) = some (KVValue.tx t) →
      t.status ≠ .pending →
      (cancelTransaction env s id).2 = .error
        ("Transaction can only be cancelled if status is pending_signatures. Current: " ++
          statusStr t.status)) ∧
    (∀ env s id t, kvGet s (txKey id) = some (KVValue.tx t) →
      t.status ≠ .allsigned →
      (broadcastTransaction env s id).2 = .error
        ("Transaction is not complete. Current status: " ++
          statusStr t.status)) := by
  refine ⟨fun s s' hst id t t' ht ht' =>
    step_transitions hst id t t' ht ht', ?_, ?_, ?_⟩
  · intro env s id pk sigs t hpk ht hst
    simp only [submitSignature, ht]
    rw [if_neg hpk, if_pos hst]
  · intro env s id t ht hst
    simp only [cancelTransaction, ht]
    rw [if_pos hst]
  · intro env s id t ht hst
    simp only [broadcastTransaction, ht]
    rw [if_pos hst]

/-- Witness for C2 (amended): broadcasting the freshly initiated pending
example transaction fails with the state error naming the current state. -/
theorem c2_witness :
    (broadcastTransaction exEnv exS2 "PSBT").2 = .error
      ("Transaction is not complete. Current status: " ++
        statusStr exTx2.status) :=
  c2_amended_state_transitions.2.2.2 exEnv exS2 "PSBT" exTx2 exS2_tx
    (by decide)

def exTxCancelled : Transaction := { exTx2 with status := .cancelled }

def exOverS : KV := kvPut exS1 (txKey "PSBT") (.tx exTxCancelled)

/-- Counterexample to C2 as stated: (a) `broadcastTransaction` on a pending
transaction fails with a message that does not name the requested
(`all_signed` / `finished_signatures`) state; (b) `initiateTransaction` on
a store holding a cancelled record whose id collides re-persists the key as
a fresh pending record — a `cancelled → pending` change outside the four
legal transitions, performed by an operation that does not fail. -/
theorem c2_counterexample :
    ((broadcastTransaction exEnv exS2 "PSBT").2 = .error
        "Transaction is not complete. Current status: pending_signatures" ∧
      ¬ ("finished_signatures".toList <:+:
        "Transaction is not complete. Current status: pending_signatures".toList) ∧
      ¬ ("all_signed".toList <:+:
        "Transaction is not complete. Current status: pending_signatures".toList)) ∧
    (exOverS (txKey "PSBT") = some (KVValue.tx exTxCancelled) ∧
      exTxCancelled.status = .cancelled ∧
      (initiateTransaction exEnv exOverS exWid "RCPT" 99900 1 none).2 =
        .ok (kvPut exOverS (txKey "PSBT") (.tx exTx2), exTx2) ∧
      (kvPut exOverS (txKey "PSBT") (.tx exTx2)) (txKey "PSBT") =
        some (KVValue.tx exTx2) ∧
      exTx2.status = .pending ∧
      ¬ LegalEdge TransactionStatus.cancelled TransactionStatus.pending) := by
  constructor
  · refine ⟨?_, by decide, by decide⟩
    simp only [broadcastTransaction, exS2_tx]
    rw [if_pos (by decide : exTx2.status ≠ TransactionStatus.allsigned)]
    rfl
  · refine ⟨kvGet_kvPut_self _ _ _, rfl, ?_, kvGet_kvPut_self _ _ _, rfl,
      by decide⟩
    apply exInitiateRun
    simp only [exOverS]
    rw [kvGet_kvPut_ne _ _ (by decide)]
    exact exS1_wallet

/-- C3: on an existing wallet whose available inputs total `X` satoshis,
with the fee computed as the estimated virtual size times `feeRate` rounded
up: if `amount + fee > X` the call fails with `Insufficient funds` and
persists nothing; if `amount + fee = X` it succeeds with only the recipient
output; if `amount + fee < X` it succeeds with an additional change output
of `X - amount - fee` back to the wallet's own address. -/
theorem c3_fund_sufficiency (env : Env) (s : KV) (wid ra : String)
    (amount feeRate : ℚ) (note : Option String) (w : Wallet)
    (utxos : List Utxo) (vSize : ℚ)
    (hw : kvGet s (walletKey wid) = some (KVValue.wallet w))
    (hu : env.utxosResp = .ok utxos) (hne : utxos ≠ [])
    (hv : env.vSizeResp = .ok vSize)
    (hra : ra ≠ "") (ha : 0 < amount) (hf : 0 < feeRate) :
    ((utxos.map (·.satoshis)).sum < amount + ((⌈vSize * feeRate⌉ : ℤ) : ℚ) →
      (initiateTransaction env s wid ra amount feeRate note).2 =
        .error ("Insufficient funds.  Available: " ++
          toString ((utxos.map (·.satoshis)).sum) ++
          ", Required (amount + fee): " ++
          toString (amount + ((⌈vSize * feeRate⌉ : ℤ) : ℚ))) ∧
      noWrites (initiateTransaction env s wid ra amount feeRate note).1 =
        true) ∧
    (amount + ((⌈vSize * feeRate⌉ : ℤ) : ℚ) = (utxos.map (·.satoshis)).sum →
      ∃ s' t, (initiateTransaction env s wid ra amount feeRate note).2 =
          .ok (s', t) ∧
        t.psbt.outputs = [⟨ra, amount⟩] ∧
        s' = kvPut s (txKey t.transactionId) (.tx t)) ∧
    (amount + ((⌈vSize * feeRate⌉ : ℤ) : ℚ) < (utxos.map (·.satoshis)).sum →
      ∃ s' t, (initiateTransaction env s wid ra amount feeRate note).2 =
          .ok (s', t) ∧
        t.psbt.outputs = [⟨ra, amount⟩,
          ⟨w.address, (utxos.map (·.satoshis)).sum - amount -
            ((⌈vSize * feeRate⌉ : ℤ) : ℚ)⟩] ∧
        s' = kvPut s (txKey t.transactionId) (.tx t)) := by
  refine ⟨?_, ?_, ?_⟩
  · intro hlt
    have herr : (initiateTransaction env s wid ra amount feeRate note).2 =
        .error ("Insufficient funds.  Available: " ++
          toString ((utxos.map (·.satoshis)).sum) ++
          ", Required (amount + fee): " ++
          toString (amount + ((⌈vSize * feeRate⌉ : ℤ) : ℚ))) := by
      simp only [initiateTransaction, hw, hu, hv]
      rw [if_neg hra, if_neg (not_le.mpr ha), if_neg (not_le.mpr hf),
        if_neg hne, if_pos hlt]
    exact ⟨herr, (initiate_trace rfl).2 _ herr⟩
  · intro heq
    simp only [initiateTransaction, hw, hu, hv]
    rw [if_neg hra, if_neg (not_le.mpr ha), if_neg (not_le.mpr hf),
      if_neg hne, if_neg (not_lt.mpr (le_of_eq heq)),
      if_neg (by
        rw [not_lt]
        linarith)]
    exact ⟨_, _, rfl, by simp, rfl⟩
  · intro hlt
    simp only [initiateTransaction, hw, hu, hv]
    rw [if_neg hra, if_neg (not_le.mpr ha), if_neg (not_le.mpr hf),
      if_neg hne, if_neg (not_lt.mpr (le_of_lt hlt)),
      if_pos (by linarith :
        (0 : ℚ) < (utxos.map (·.satoshis)).sum - amount -
          ((⌈vSize * feeRate⌉ : ℤ) : ℚ))]
    exact ⟨_, _, rfl, by simp, rfl⟩

/-- Witness for C3: the example transfer exactly exhausts the single input
(`amount + fee = X`), yielding only the recipient output. -/
theorem c3_witness :
    ∃ s' t, (initiateTransaction exEnv exS1 exWid "RCPT" 99900 1 none).2 =
        .ok (s', t) ∧
      t.psbt.outputs = [⟨"RCPT", 99900⟩] ∧
      s' = kvPut exS1 (txKey t.transactionId) (.tx t) :=
  (c3_fund_sufficiency exEnv exS1 exWid "RCPT" 99900 1 none exWallet
    [exUtxo] 100 exS1_wallet rfl (by decide) rfl (by decide) (by norm_num)
    (by norm_num)).2.1 (by norm_num [exUtxo])

/-- C8 (amended): the five transaction-lifecycle operations (initiate,
submitSignature, cancel, broadcast, getStatus) perform every external
collaborator call before their first persistence write, and a failing call
performs no write at all.  (`createMultisigWallet` is excluded: it writes
its `_id:` record before calling the script engine.) -/
theorem c8_amended_writes_after_external_calls :
    (∀ env s wid ra amount feeRate note,
      eventsOrdered
        (initiateTransaction env s wid ra amount feeRate note).1 = true ∧
      ∀ e, (initiateTransaction env s wid ra amount feeRate note).2 =
          .error e →
        noWrites (initiateTransaction env s wid ra amount feeRate note).1 =
          true) ∧
    (∀ env s tid pk sigs,
      eventsOrdered (submitSignature env s tid pk sigs).1 = true ∧
      ∀ e, (submitSignature env s tid pk sigs).2 = .error e →
        noWrites (submitSignature env s tid pk sigs).1 = true) ∧
    (∀ env s tid,
      eventsOrdered (cancelTransaction env s tid).1 = true ∧
      ∀ e, (cancelTransaction env s tid).2 = .error e →
        noWrites (cancelTransaction env s tid).1 = true) ∧
    (∀ env s tid,
      eventsOrdered (broadcastTransaction env s tid).1 = true ∧
      ∀ e, (broadcastTransaction env s tid).2 = .error e →
        noWrites (broadcastTransaction env s tid).1 = true) ∧
    (∀ env s tid,
      eventsOrdered (getTransactionStatus env s tid).1 = true ∧
      ∀ e, (getTransactionStatus env s tid).2 = .error e →
        noWrites (getTransactionStatus env s tid).1 = true) :=
  ⟨fun env s wid ra amount feeRate note =>
    @initiate_trace env s wid ra amount feeRate note
      (initiateTransaction env s wid ra amount feeRate note).1
      (initiateTransaction env s wid ra amount feeRate note).2 rfl,
   fun env s tid pk sigs =>
    @submit_trace env s tid pk sigs
      (submitSignature env s tid pk sigs).1
      (submitSignature env s tid pk sigs).2 rfl,
   fun env s tid =>
    @cancel_trace env s tid (cancelTransaction env s tid).1
      (cancelTransaction env s tid).2 rfl,
   fun env s tid =>
    @broadcast_trace env s tid (broadcastTransaction env s tid).1
      (broadcastTransaction env s tid).2 rfl,
   fun env s tid =>
    @getStatus_trace env s tid (getTransactionStatus env s tid).1
      (getTransactionStatus env s tid).2 rfl⟩

/-- The trace of the example `createMultisigWallet` call: the
`generateWalletId` write precedes the script-engine address derivation. -/
theorem exCreateTrace : (createMultisigWallet exEnv kvEmpty 2 3 none exPs).1 =
    [.dbPut (idKey (fingerprintOf exEnv exPs)),
     .extCall "initializeMultiSig", .dbPut (walletKey exWid)] := by
  simp only [createMultisigWallet, generateWalletId]
  rw [if_neg (not_not_intro ⟨by decide, by decide⟩)]
  rw [if_neg (by norm_num : ¬((2 : ℚ) > 3 ∨ (2 : ℚ) ≤ 0 ∨ (3 : ℚ) ≤ 0))]
  rw [if_neg (not_not_intro (by
    have h : exPs.length = 3 := by decide
    rw [h]
    norm_num))]
  rw [if_neg (not_not_intro (by
    have h : ((exPs.map (·.publicKey)).dedup.length) = 3 := by decide
    rw [h]
    norm_num))]
  rfl

/-- Counterexample to C8 as stated: `createMultisigWallet` performs a
persistence write (the `_id:` record inside `generateWalletId`) before its
call to the script engine's `initializeMultiSig`, so not every external
collaborator call precedes the first write. -/
theorem c8_counterexample :
    eventsOrdered (createMultisigWallet exEnv kvEmpty 2 3 none exPs).1 =
      false ∧
    (createMultisigWallet exEnv kvEmpty 2 3 none exPs).1 =
      [.dbPut (idKey (fingerprintOf exEnv exPs)),
       .extCall "initializeMultiSig", .dbPut (walletKey exWid)] := by
  refine ⟨?_, exCreateTrace⟩
  rw [exCreateTrace]
  rfl

/-- Witness for C8 (amended): a cancel call on the empty store fails with
not-found and performs no write, with an ordered (empty) trace. -/
theorem c8_witness :
    eventsOrdered (cancelTransaction exEnv kvEmpty "X").1 = true ∧
    noWrites (cancelTransaction exEnv kvEmpty "X").1 = true := by
  obtain ⟨-, -, hc, -, -⟩ := c8_amended_writes_after_external_calls
  exact ⟨(hc exEnv kvEmpty "X").1,
    (hc exEnv kvEmpty "X").2 ("Transaction not found: " ++ "X") rfl⟩

/-- C9: `getTransactionStatus` on a broadcasted record with a recorded hash
returns the stored summary and performs no write while the confirmation
count is missing or zero; with a positive count, the single call persists
the `confirmed` record before returning it; and on a confirmed record every
call returns the same summary with no write. -/
theorem c9_confirmation_idempotence (s : KV) (tid : String)
    (t : Transaction) (ht : kvGet s (txKey tid) = some (KVValue.tx t)) :
    (∀ env, t.status = .broadcasted → truthyStr t.txHash = true →
      (env.txDetailsResp = none ∨ ∃ c, env.txDetailsResp = some c ∧ c ≤ 0) →
      (getTransactionStatus env s tid).2 = .ok (s, mkSummary t) ∧
      noWrites (getTransactionStatus env s tid).1 = true) ∧
    (∀ env (c : ℤ), t.status = .broadcasted → truthyStr t.txHash = true →
      env.txDetailsResp = some c → 0 < c →
      (getTransactionStatus env s tid).2 =
        .ok (kvPut s (txKey tid) (.tx { t with status := .finished }),
          mkSummary { t with status := .finished }) ∧
      (getTransactionStatus env s tid).1 =
        [.extCall "getTransactionStatus", .dbPut (txKey tid)]) ∧
    (∀ env, t.status = .finished →
      (getTransactionStatus env s tid).2 = .ok (s, mkSummary t) ∧
      noWrites (getTransactionStatus env s tid).1 = true) := by
  refine ⟨?_, ?_, ?_⟩
  · intro env hb htr hc
    simp only [getTransactionStatus, ht]
    rw [if_pos ⟨hb, htr⟩]
    rcases hc with hc | ⟨c, hc, hc0⟩
    · rw [hc]
      exact ⟨rfl, rfl⟩
    · rw [hc]
      dsimp only
      rw [if_neg (not_lt.mpr hc0)]
      exact ⟨rfl, rfl⟩
  · intro env c hb htr hc hc0
    simp only [getTransactionStatus, ht]
    rw [if_pos ⟨hb, htr⟩, hc]
    dsimp only
    rw [if_pos hc0]
    exact ⟨rfl, rfl⟩
  · intro env hfin
    simp only [getTransactionStatus, ht]
    rw [if_neg (by simp [hfin])]
    exact ⟨rfl, rfl⟩

/-- Witness for C9: polling the broadcasted example transaction with one
confirmation persists the confirmed record. -/
theorem c9_witness :
    (getTransactionStatus exEnv exS5 "PSBT").2 =
      .ok (kvPut exS5 (txKey "PSBT")
          (.tx { exTx5 with status := .finished }),
        mkSummary { exTx5 with status := .finished }) ∧
    (getTransactionStatus exEnv exS5 "PSBT").1 =
      [.extCall "getTransactionStatus", .dbPut (txKey "PSBT")] :=
  (c9_confirmation_idempotence exS5 "PSBT" exTx5 exS5_tx).2.1 exEnv 1 rfl
    (by decide) rfl (by decide)
